import Mathlib

/-!
# Seat allocation engine of VulcanLabsOA: embedding and verified properties

The Go packages `util/mathutil`, `manager` and `controller/request` are embedded as pure
functions. Go `int` and `int64` values are integers; every arithmetic result the program
computes in a 64-bit register is passed through `wrap64`, the two's-complement wrap-around.
A Go `map` is an association list read with `mapLookup` and written with `mapInsert` and
`mapDelete`; a method that mutates the receiver returns the new receiver next to its result.
Positions in a batch (`SeatError.index`) are natural numbers. The mutex of the room manager is
not modelled: every method is one atomic step.
-/

/-- Two's-complement wrap-around of an exact integer into the signed 64-bit range
`[-2^63, 2^63)`: the value a Go `int`/`int64` operation leaves in its register. -/
def wrap64 (x : Int) : Int :=
  (x + 9223372036854775808) % 18446744073709551616 - 9223372036854775808

/-- Go map read `m[k]` with the presence flag: the value stored under `k`, if any. -/
def mapLookup {κ ν : Type} [DecidableEq κ] : List (κ × ν) → κ → Option ν
  | [], _ => none
  | (k0, v0) :: rest, k => if k0 = k then some v0 else mapLookup rest k

/-- Go map write `m[k] = v`: replaces the value of an existing key, adds the key otherwise. -/
def mapInsert {κ ν : Type} [DecidableEq κ] : List (κ × ν) → κ → ν → List (κ × ν)
  | [], k, v => [(k, v)]
  | (k0, v0) :: rest, k, v =>
    if k0 = k then (k, v) :: rest else (k0, v0) :: mapInsert rest k v

/-- Go `delete(m, k)`: removes the key, a no-op when it is absent. -/
def mapDelete {κ ν : Type} [DecidableEq κ] (m : List (κ × ν)) (k : κ) : List (κ × ν) :=
  m.filter (fun e => decide (e.1 ≠ k))

namespace mathutil

/-- `mathutil.AbsDiff` at type `int`: `y - x` when `x < y`, else `x - y`, in 64-bit arithmetic. -/
def AbsDiff (x y : Int) : Int :=
  if x < y then wrap64 (y - x) else wrap64 (x - y)

end mathutil

namespace config

/-- `config.Room`: the grid extent and the minimum distance between different groups. -/
structure Room where
  NumRows : Int
  NumCols : Int
  MinDistance : Int
  deriving DecidableEq, Repr

end config

namespace manager

/-- `manager.Error`: the only value the package declares is `ErrGroupIdNotFound`. -/
inductive Error where
  | ErrGroupIdNotFound
  deriving DecidableEq, Repr

/-- `manager.SeatErrorCode`, in declaration order (`iota + 1`). -/
inductive SeatErrorCode where
  | SeatErrorCodeOutOfBound
  | SeatErrorCodeSeatTaken
  | SeatErrorCodeInvalidDistance
  | SeatErrorCodeGroupIDNotFound
  | SeatErrorCodeNotReserved
  | SeatErrorCodeDuplicatedPosition
  deriving DecidableEq, Repr

/-- `manager.Coordinate`, a `[2]int`: element 0 is the row, element 1 the column. -/
structure Coordinate where
  row : Int
  col : Int
  deriving DecidableEq, Repr

/-- `Coordinate.AsIndex`: `int64(c[0])*int64(numCols) + int64(c[1])`. -/
def Coordinate.AsIndex (c : Coordinate) (numCols : Int) : Int :=
  wrap64 (wrap64 (c.row * numCols) + c.col)

/-- `manager.Seat`: a group id with an embedded coordinate. -/
structure Seat where
  GroupID : String
  Coordinate : Coordinate
  deriving DecidableEq, Repr

/-- `Seat.Row`. -/
def Seat.Row (s : Seat) : Int := s.Coordinate.row

/-- `Seat.Col`. -/
def Seat.Col (s : Seat) : Int := s.Coordinate.col

/-- `Seat.AsIndex`, promoted from the embedded coordinate. -/
def Seat.AsIndex (s : Seat) (numCols : Int) : Int := s.Coordinate.AsIndex numCols

/-- `manager.SeatError`: the offending seat, the code, and the position in the batch. -/
structure SeatError where
  seat : Seat
  Code : SeatErrorCode
  index : Nat
  deriving DecidableEq, Repr

/-- `manager.DefaultGroupManager`: the configured group ids, in order. -/
structure DefaultGroupManager where
  groups : List String
  deriving DecidableEq, Repr

/-- `manager.NewGroupManager`. -/
def NewGroupManager (groups : List String) : DefaultGroupManager := ⟨groups⟩

/-- `DefaultGroupManager.ListGroupIDs`. -/
def DefaultGroupManager.ListGroupIDs (m : DefaultGroupManager) : List String := m.groups

/-- `DefaultGroupManager.HasGroupID`: linear search of the listing. -/
def DefaultGroupManager.HasGroupID (m : DefaultGroupManager) (groupID : String) : Bool :=
  m.ListGroupIDs.any (fun e => decide (groupID = e))

/-- `manager.DefaultRoomManager` without logger and mutex: configuration, the
`reservedSeat` map from cell index to owning group, and the group manager. -/
structure DefaultRoomManager where
  cfg : config.Room
  reservedSeat : List (Int × String)
  groupManager : DefaultGroupManager
  deriving DecidableEq, Repr

/-- `manager.NewRoomManager`: starts with an empty reservation map. -/
def NewRoomManager (cfg : config.Room) (groupManager : DefaultGroupManager) :
    DefaultRoomManager :=
  ⟨cfg, [], groupManager⟩

/-- `DefaultRoomManager.isValidDistance`: the Manhattan distance of the two seats is at
least 1 for seats of one group and at least `MinDistance` for seats of different groups. -/
def DefaultRoomManager.isValidDistance (m : DefaultRoomManager) (a b : Seat) : Bool :=
  let minDistance := if a.GroupID ≠ b.GroupID then m.cfg.MinDistance else 1
  let manhattanDist := wrap64 (mathutil.AbsDiff a.Row b.Row + mathutil.AbsDiff a.Col b.Col)
  decide (manhattanDist ≥ minDistance)

/-- `DefaultRoomManager.indexToCoordinate`: `(i / NumCols, i % NumCols)` with Go's
truncated division. `ReserveSeats` calls it only after a column passed `0 <= col < NumCols`
and `ListAvailableSeats` only for `0 <= i < NumRows * NumCols`, so the program never divides
by zero here. -/
def DefaultRoomManager.indexToCoordinate (m : DefaultRoomManager) (i : Int) : Coordinate :=
  ⟨Int.tdiv i m.cfg.NumCols, Int.tmod i m.cfg.NumCols⟩

/-- The body of the validation loop of `ReserveSeats` for one entry, `idxSet` holding the
indexes of the entries validated before it: the code of the `SeatError` the loop returns
at this entry, if any, the checks being made in the order of the source. -/
def DefaultRoomManager.validateSeat (m : DefaultRoomManager) (idxSet : List Int)
    (seat : Seat) : Option SeatErrorCode :=
  if !m.groupManager.HasGroupID seat.GroupID then
    some .SeatErrorCodeGroupIDNotFound
  else if seat.Row < 0 || seat.Row ≥ m.cfg.NumRows then
    some .SeatErrorCodeOutOfBound
  else if seat.Col < 0 || seat.Col ≥ m.cfg.NumCols then
    some .SeatErrorCodeOutOfBound
  else
    let idx := seat.Coordinate.AsIndex m.cfg.NumCols
    if (mapLookup m.reservedSeat idx).isSome then
      some .SeatErrorCodeSeatTaken
    else if idxSet.contains idx then
      some .SeatErrorCodeDuplicatedPosition
    else if m.reservedSeat.any (fun e =>
        !m.isValidDistance seat ⟨e.2, m.indexToCoordinate e.1⟩) then
      some .SeatErrorCodeInvalidDistance
    else
      none

/-- The validation loop of `ReserveSeats` from batch position `i` on: the first
`SeatError` it returns, if any; an entry that passes adds its index to `idxSet`. -/
def DefaultRoomManager.validateSeats (m : DefaultRoomManager) :
    List Seat → Nat → List Int → Option SeatError
  | [], _, _ => none
  | seat :: rest, i, idxSet =>
    match m.validateSeat idxSet seat with
    | some code => some ⟨seat, code, i⟩
    | none => m.validateSeats rest (i + 1) (seat.Coordinate.AsIndex m.cfg.NumCols :: idxSet)

/-- The commit loop of `ReserveSeats`: `m.reservedSeat[idx] = seat.GroupID` per entry. -/
def DefaultRoomManager.commitSeats (m : DefaultRoomManager) (seats : List Seat) :
    List (Int × String) :=
  seats.foldl (fun r seat => mapInsert r (seat.AsIndex m.cfg.NumCols) seat.GroupID)
    m.reservedSeat

/-- `DefaultRoomManager.ReserveSeats`: the manager after the call and the returned error
(`none` for `nil`). -/
def DefaultRoomManager.ReserveSeats (m : DefaultRoomManager) (seats : List Seat) :
    DefaultRoomManager × Option SeatError :=
  match m.validateSeats seats 0 [] with
  | some e => (m, some e)
  | none => ({ m with reservedSeat := m.commitSeats seats }, none)

/-- The validation loop of `CancelSeats` from batch position `i` on. -/
def DefaultRoomManager.validateCancel (m : DefaultRoomManager) :
    List Coordinate → Nat → Option SeatError
  | [], _ => none
  | coord :: rest, i =>
    if (mapLookup m.reservedSeat (coord.AsIndex m.cfg.NumCols)).isNone then
      some ⟨⟨"", coord⟩, .SeatErrorCodeNotReserved, i⟩
    else
      m.validateCancel rest (i + 1)

/-- `DefaultRoomManager.CancelSeats`: the manager after the call and the returned error. -/
def DefaultRoomManager.CancelSeats (m : DefaultRoomManager) (coordinates : List Coordinate) :
    DefaultRoomManager × Option SeatError :=
  match m.validateCancel coordinates 0 with
  | some e => (m, some e)
  | none =>
    let indexes := coordinates.map (fun coord => coord.AsIndex m.cfg.NumCols)
    ({ m with reservedSeat := indexes.foldl mapDelete m.reservedSeat }, none)

/-- The innermost loop of `ListAvailableSeats`: candidate `c` keeps the required distance
from every reserved seat, for group `groupID`. -/
def DefaultRoomManager.candidateValid (m : DefaultRoomManager)
    (reservedSeats : List (Int × String)) (groupID : String) (c : Coordinate) : Bool :=
  reservedSeats.all (fun e =>
    m.isValidDistance ⟨e.2, m.indexToCoordinate e.1⟩ ⟨groupID, c⟩)

/-- One iteration of the cell loop of `ListAvailableSeats` at index `i`: a reserved cell is
skipped, otherwise the candidate is appended to the bucket of every listed group id for
which it is valid. -/
def DefaultRoomManager.listStep (m : DefaultRoomManager) (reservedSeats : List (Int × String))
    (groupIDs : List String) (bucket : List (String × List Coordinate)) (i : Int) :
    List (String × List Coordinate) :=
  if (mapLookup reservedSeats i).isSome then bucket
  else
    let candidateCoord := m.indexToCoordinate i
    groupIDs.foldl (fun b groupID =>
      if m.candidateValid reservedSeats groupID candidateCoord then
        mapInsert b groupID ((mapLookup b groupID).getD [] ++ [candidateCoord])
      else b) bucket

/-- `DefaultRoomManager.ListAvailableSeats`: `ErrGroupIdNotFound` for an unknown non-empty
filter, otherwise the map from each target group id to its available coordinates. -/
def DefaultRoomManager.ListAvailableSeats (m : DefaultRoomManager) (groupID : String) :
    Except Error (List (String × List Coordinate)) :=
  let reservedSeats := m.reservedSeat
  if groupID ≠ "" && !m.groupManager.HasGroupID groupID then
    .error .ErrGroupIdNotFound
  else
    let groupIDs := if groupID = "" then m.groupManager.ListGroupIDs else [groupID]
    let availableSeatBucket : List (String × List Coordinate) :=
      groupIDs.foldl (fun b g => mapInsert b g []) []
    let numCells := wrap64 (m.cfg.NumRows * m.cfg.NumCols)
    .ok (((List.range numCells.toNat).map Int.ofNat).foldl
      (m.listStep reservedSeats groupIDs) availableSeatBucket)

/-- The reservation states reachable from `NewRoomManager cfg gm` by finitely many
`ReserveSeats` and `CancelSeats` calls (failed calls included: they leave the state as is). -/
inductive Reachable (cfg : config.Room) (gm : DefaultGroupManager) : DefaultRoomManager → Prop
  | init : Reachable cfg gm (NewRoomManager cfg gm)
  | reserve (m : DefaultRoomManager) (seats : List Seat) :
      Reachable cfg gm m → Reachable cfg gm (m.ReserveSeats seats).1
  | cancel (m : DefaultRoomManager) (coordinates : List Coordinate) :
      Reachable cfg gm m → Reachable cfg gm (m.CancelSeats coordinates).1

end manager

namespace request

set_option linter.dupNamespace false

/-- `request.SeatsCancellation`: the decoded `seats_cancellation` array, one `[2]int`
position per element. -/
structure SeatsCancellation where
  SeatsCancellation : List manager.Coordinate
  deriving DecidableEq, Repr

/-- The loop of `SeatsCancellation.Valid` from position `i` on, `problems` being the map
built so far: it stops as soon as a problem is recorded. -/
def SeatsCancellation.validLoop :
    List manager.Coordinate → Nat → List (String × String) → List (String × String)
  | [], _, problems => problems
  | data :: rest, i, problems =>
    if problems.length > 0 then problems
    else if data.row < 0 || data.col < 0 then
      SeatsCancellation.validLoop rest (i + 1)
        (mapInsert problems "position"
          ("position at index " ++ toString i ++ " must be greater than 0"))
    else SeatsCancellation.validLoop rest (i + 1) problems

/-- `SeatsCancellation.Valid`: the problems found; the request is passed on to
`CancelSeats` exactly when the result is empty. -/
def SeatsCancellation.Valid (s : request.SeatsCancellation) : List (String × String) :=
  SeatsCancellation.validLoop s.SeatsCancellation 0 []

end request

namespace fixture

/-- The room of `controller/room_test.go`: 4 rows, 4 columns, minimum distance 3. -/
def cfg : config.Room := ⟨4, 4, 3⟩

/-- The group manager of `TestRoomController_ReserveSeats`: groups `abc` and `xyz`. -/
def groupManager : manager.DefaultGroupManager := manager.NewGroupManager ["abc", "xyz"]

/-- The room manager the tests start from: no seat reserved. -/
def roomManager : manager.DefaultRoomManager := manager.NewRoomManager cfg groupManager

end fixture

/-! ## Association-list maps -/

section MapLemmas

variable {κ ν : Type} [DecidableEq κ]

theorem mapLookup_eq_none_iff (m : List (κ × ν)) (k : κ) :
    mapLookup m k = none ↔ ∀ e ∈ m, e.1 ≠ k := by
  induction m with
  | nil => simp [mapLookup]
  | cons hd tl ih =>
    obtain ⟨k0, v0⟩ := hd
    by_cases h : k0 = k
    · simp [mapLookup, h]
    · simp [mapLookup, h, ih]

theorem mapLookup_mapInsert_self (m : List (κ × ν)) (k : κ) (v : ν) :
    mapLookup (mapInsert m k v) k = some v := by
  induction m with
  | nil => simp [mapInsert, mapLookup]
  | cons hd tl ih =>
    obtain ⟨k0, v0⟩ := hd
    by_cases h : k0 = k
    · simp [mapInsert, mapLookup, h]
    · simp [mapInsert, mapLookup, h, ih]

theorem mapLookup_mapInsert_ne (m : List (κ × ν)) (k k1 : κ) (v : ν) (hne : k1 ≠ k) :
    mapLookup (mapInsert m k v) k1 = mapLookup m k1 := by
  induction m with
  | nil => simp [mapInsert, mapLookup, Ne.symm hne]
  | cons hd tl ih =>
    obtain ⟨k0, v0⟩ := hd
    by_cases h : k0 = k
    · subst h
      simp [mapInsert, mapLookup, Ne.symm hne]
    · by_cases h1 : k0 = k1
      · subst h1
        simp [mapInsert, mapLookup, h]
      · simp [mapInsert, mapLookup, h, h1, ih]

theorem mapInsert_of_lookup_none (m : List (κ × ν)) (k : κ) (v : ν)
    (h : mapLookup m k = none) : mapInsert m k v = m ++ [(k, v)] := by
  induction m with
  | nil => simp [mapInsert]
  | cons hd tl ih =>
    obtain ⟨k0, v0⟩ := hd
    by_cases h0 : k0 = k
    · simp [mapLookup, h0] at h
    · simp only [mapLookup, h0, if_false] at h
      simp [mapInsert, h0, ih h]

theorem mapLookup_append (m1 m2 : List (κ × ν)) (k : κ) :
    mapLookup (m1 ++ m2) k = (mapLookup m1 k).orElse (fun _ => mapLookup m2 k) := by
  induction m1 with
  | nil => simp [mapLookup]
  | cons hd tl ih =>
    obtain ⟨k0, v0⟩ := hd
    by_cases h : k0 = k
    · simp [mapLookup, h]
    · simp [mapLookup, h, ih]

theorem mapLookup_mapDelete_self (m : List (κ × ν)) (k : κ) :
    mapLookup (mapDelete m k) k = none := by
  rw [mapLookup_eq_none_iff]
  intro e he
  simp only [mapDelete, List.mem_filter, decide_eq_true_eq] at he
  exact he.2

theorem mapLookup_mapDelete_ne (m : List (κ × ν)) (k k1 : κ) (hne : k1 ≠ k) :
    mapLookup (mapDelete m k) k1 = mapLookup m k1 := by
  induction m with
  | nil => simp [mapDelete, mapLookup]
  | cons hd tl ih =>
    obtain ⟨k0, v0⟩ := hd
    by_cases h : k0 = k
    · subst h
      have : mapDelete ((k0, v0) :: tl) k0 = mapDelete tl k0 := by simp [mapDelete]
      rw [this, ih]
      simp [mapLookup, Ne.symm hne]
    · have : mapDelete ((k0, v0) :: tl) k = (k0, v0) :: mapDelete tl k := by
        simp [mapDelete, h]
      rw [this]
      simp [mapLookup, ih]

end MapLemmas

namespace manager

/-! ## Group registry -/

theorem HasGroupID_iff (gm : DefaultGroupManager) (g : String) :
    gm.HasGroupID g = true ↔ g ∈ gm.groups := by
  simp [DefaultGroupManager.HasGroupID, DefaultGroupManager.ListGroupIDs]

/-- C1. `ReserveSeats` is all-or-nothing: whenever it returns an error, the manager it leaves
behind, and so the reservation map, is the one it was called on; no entry of the map is added,
removed or given another owner, whatever the earlier entries of the batch were. -/
theorem ReserveSeats_error_leaves_state (m : DefaultRoomManager) (seats : List Seat)
    (h : (m.ReserveSeats seats).2 ≠ none) :
    (m.ReserveSeats seats).1 = m ∧
      (m.ReserveSeats seats).1.reservedSeat = m.reservedSeat := by
  unfold DefaultRoomManager.ReserveSeats at h ⊢
  cases hv : m.validateSeats seats 0 [] with
  | none => simp [hv] at h
  | some e => simp

/-- Witness for C1 on the 4x4 test room holding `abc` at `[0,1]`: the batch has a valid first
entry and an unknown group in its second entry; the call fails and the map is unchanged. -/
theorem ReserveSeats_error_leaves_state_witness :
    ((fixture.roomManager.ReserveSeats [⟨"abc", ⟨0, 1⟩⟩]).1.ReserveSeats
        [⟨"abc", ⟨2, 2⟩⟩, ⟨"nobody", ⟨3, 3⟩⟩]).2 ≠ none ∧
      ((fixture.roomManager.ReserveSeats [⟨"abc", ⟨0, 1⟩⟩]).1.ReserveSeats
        [⟨"abc", ⟨2, 2⟩⟩, ⟨"nobody", ⟨3, 3⟩⟩]).1.reservedSeat = [(1, "abc")] :=
  ⟨by decide,
    (ReserveSeats_error_leaves_state (fixture.roomManager.ReserveSeats [⟨"abc", ⟨0, 1⟩⟩]).1
      [⟨"abc", ⟨2, 2⟩⟩, ⟨"nobody", ⟨3, 3⟩⟩] (by decide)).2.trans (by decide)⟩

/-! ## The validation loop of `ReserveSeats` -/

theorem any_invalid_eq_false_iff (m : DefaultRoomManager) (seat : Seat) :
    (m.reservedSeat.any (fun e =>
        !m.isValidDistance seat ⟨e.2, m.indexToCoordinate e.1⟩)) = false ↔
      ∀ x ∈ m.reservedSeat,
        m.isValidDistance seat ⟨x.2, m.indexToCoordinate x.1⟩ = true := by
  simp [List.any_eq_false]

theorem validateSeat_eq_none_iff (m : DefaultRoomManager) (idxSet : List Int) (seat : Seat) :
    m.validateSeat idxSet seat = none ↔
      seat.GroupID ∈ m.groupManager.groups ∧
      (0 ≤ seat.Coordinate.row ∧ seat.Coordinate.row < m.cfg.NumRows ∧
        0 ≤ seat.Coordinate.col ∧ seat.Coordinate.col < m.cfg.NumCols) ∧
      mapLookup m.reservedSeat (seat.Coordinate.AsIndex m.cfg.NumCols) = none ∧
      seat.Coordinate.AsIndex m.cfg.NumCols ∉ idxSet ∧
      (∀ x ∈ m.reservedSeat,
        m.isValidDistance seat ⟨x.2, m.indexToCoordinate x.1⟩ = true) := by
  rw [← any_invalid_eq_false_iff, ← HasGroupID_iff]
  unfold DefaultRoomManager.validateSeat
  simp only [Seat.Row, Seat.Col]
  split_ifs with h1 h2 h3 h4 h5 h6
  all_goals simp_all
  · intro a b; omega
  · intro a b; omega
  · intro h; simp [h] at h4

theorem validateSeat_eq_some (m : DefaultRoomManager) (idxSet : List Int) (seat : Seat)
    (code : SeatErrorCode) (h : m.validateSeat idxSet seat = some code) :
    (code = .SeatErrorCodeGroupIDNotFound ∧ seat.GroupID ∉ m.groupManager.groups) ∨
    (code = .SeatErrorCodeOutOfBound ∧ seat.GroupID ∈ m.groupManager.groups ∧
      ¬ (0 ≤ seat.Coordinate.row ∧ seat.Coordinate.row < m.cfg.NumRows ∧
        0 ≤ seat.Coordinate.col ∧ seat.Coordinate.col < m.cfg.NumCols)) ∨
    (code = .SeatErrorCodeSeatTaken ∧ seat.GroupID ∈ m.groupManager.groups ∧
      (0 ≤ seat.Coordinate.row ∧ seat.Coordinate.row < m.cfg.NumRows ∧
        0 ≤ seat.Coordinate.col ∧ seat.Coordinate.col < m.cfg.NumCols) ∧
      mapLookup m.reservedSeat (seat.Coordinate.AsIndex m.cfg.NumCols) ≠ none) ∨
    (code = .SeatErrorCodeDuplicatedPosition ∧ seat.GroupID ∈ m.groupManager.groups ∧
      (0 ≤ seat.Coordinate.row ∧ seat.Coordinate.row < m.cfg.NumRows ∧
        0 ≤ seat.Coordinate.col ∧ seat.Coordinate.col < m.cfg.NumCols) ∧
      mapLookup m.reservedSeat (seat.Coordinate.AsIndex m.cfg.NumCols) = none ∧
      seat.Coordinate.AsIndex m.cfg.NumCols ∈ idxSet) ∨
    (code = .SeatErrorCodeInvalidDistance ∧ seat.GroupID ∈ m.groupManager.groups ∧
      (0 ≤ seat.Coordinate.row ∧ seat.Coordinate.row < m.cfg.NumRows ∧
        0 ≤ seat.Coordinate.col ∧ seat.Coordinate.col < m.cfg.NumCols) ∧
      mapLookup m.reservedSeat (seat.Coordinate.AsIndex m.cfg.NumCols) = none ∧
      seat.Coordinate.AsIndex m.cfg.NumCols ∉ idxSet ∧
      ∃ x ∈ m.reservedSeat,
        m.isValidDistance seat ⟨x.2, m.indexToCoordinate x.1⟩ = false) := by
  rw [← HasGroupID_iff]
  unfold DefaultRoomManager.validateSeat at h
  simp only [Seat.Row, Seat.Col] at h
  split_ifs at h with h1 h2 h3 h4 h5 h6
  all_goals simp_all
  · left; intros; omega
  · left; intros; omega
  · left; intro hn; simp [hn] at h4

theorem validateSeats_eq_none_iff (m : DefaultRoomManager) (rest : List Seat) (i : Nat)
    (idxSet : List Int) :
    m.validateSeats rest i idxSet = none ↔
      (∀ seat ∈ rest,
        seat.GroupID ∈ m.groupManager.groups ∧
        (0 ≤ seat.Coordinate.row ∧ seat.Coordinate.row < m.cfg.NumRows ∧
          0 ≤ seat.Coordinate.col ∧ seat.Coordinate.col < m.cfg.NumCols) ∧
        mapLookup m.reservedSeat (seat.Coordinate.AsIndex m.cfg.NumCols) = none ∧
        seat.Coordinate.AsIndex m.cfg.NumCols ∉ idxSet ∧
        (∀ x ∈ m.reservedSeat,
          m.isValidDistance seat ⟨x.2, m.indexToCoordinate x.1⟩ = true)) ∧
      rest.Pairwise (fun a b =>
        a.Coordinate.AsIndex m.cfg.NumCols ≠ b.Coordinate.AsIndex m.cfg.NumCols) := by
  induction rest generalizing i idxSet with
  | nil => simp [DefaultRoomManager.validateSeats]
  | cons seat rest ih =>
    simp only [DefaultRoomManager.validateSeats]
    cases hv : m.validateSeat idxSet seat with
    | some code =>
      have hne : ¬ (m.validateSeat idxSet seat = none) := by simp [hv]
      rw [validateSeat_eq_none_iff] at hne
      constructor
      · intro h; simp at h
      · rintro ⟨h1, _⟩
        exact absurd (h1 seat (List.mem_cons_self _ _)) hne
    | none =>
      have hok := (validateSeat_eq_none_iff m idxSet seat).1 hv
      simp only [ih, List.pairwise_cons, List.mem_cons, forall_eq_or_imp]
      constructor
      · rintro ⟨h1, h2⟩
        refine ⟨⟨hok, fun a ha => ?_⟩, fun a ha hEq => ?_, h2⟩
        · obtain ⟨p1, p2, p3, p4, p5⟩ := h1 a ha
          exact ⟨p1, p2, p3, fun hmem => p4 (Or.inr hmem), p5⟩
        · exact (h1 a ha).2.2.2.1 (Or.inl hEq.symm)
      · rintro ⟨⟨_, h1⟩, h2, h3⟩
        refine ⟨fun a ha => ?_, h3⟩
        obtain ⟨p1, p2, p3, p4, p5⟩ := h1 a ha
        refine ⟨p1, p2, p3, ?_, p5⟩
        rintro (hEq | hmem)
        · exact h2 a ha hEq.symm
        · exact p4 hmem

theorem validateSeats_eq_some (m : DefaultRoomManager) (rest : List Seat) (i : Nat)
    (idxSet : List Int) (e : SeatError) (h : m.validateSeats rest i idxSet = some e) :
    ∃ pre post, rest = pre ++ e.seat :: post ∧ e.index = i + pre.length ∧
      m.validateSeats pre i idxSet = none ∧
      m.validateSeat
        ((pre.map (fun s => s.Coordinate.AsIndex m.cfg.NumCols)).reverse ++ idxSet)
        e.seat = some e.Code := by
  induction rest generalizing i idxSet with
  | nil => simp [DefaultRoomManager.validateSeats] at h
  | cons seat rest ih =>
    simp only [DefaultRoomManager.validateSeats] at h
    cases hv : m.validateSeat idxSet seat with
    | some code =>
      rw [hv] at h
      simp only [Option.some.injEq] at h
      subst h
      exact ⟨[], rest, by simp, by simp, by simp [DefaultRoomManager.validateSeats],
        by simpa using hv⟩
    | none =>
      rw [hv] at h
      obtain ⟨pre, post, h1, h2, h3, h4⟩ := ih _ _ h
      refine ⟨seat :: pre, post, by simp [h1], by simp [h2]; omega, ?_, ?_⟩
      · simp only [DefaultRoomManager.validateSeats, hv]
        exact h3
      · simpa [List.map_cons, List.reverse_cons, List.append_assoc] using h4

/-- C3. `ReserveSeats` succeeds exactly when every entry of the batch passes the five checks
against the map as it was before the call: (1) its group id is in the registry, (2) its row and
column are inside the grid, (3) its index is not a key of the map, (4) its index differs from
the index of every earlier entry of the batch (`List.Pairwise`), (5) `isValidDistance` holds
between it and every seat of the map. Distances between two entries of the batch do not occur
in the condition. -/
theorem ReserveSeats_succeeds_iff (m : DefaultRoomManager) (seats : List Seat) :
    (m.ReserveSeats seats).2 = none ↔
      (∀ seat ∈ seats,
        seat.GroupID ∈ m.groupManager.groups ∧
        (0 ≤ seat.Coordinate.row ∧ seat.Coordinate.row < m.cfg.NumRows ∧
          0 ≤ seat.Coordinate.col ∧ seat.Coordinate.col < m.cfg.NumCols) ∧
        mapLookup m.reservedSeat (seat.Coordinate.AsIndex m.cfg.NumCols) = none ∧
        (∀ x ∈ m.reservedSeat,
          m.isValidDistance seat ⟨x.2, m.indexToCoordinate x.1⟩ = true)) ∧
      seats.Pairwise (fun earlier later =>
        earlier.Coordinate.AsIndex m.cfg.NumCols ≠ later.Coordinate.AsIndex m.cfg.NumCols) := by
  have hv := validateSeats_eq_none_iff m seats 0 []
  simp only [List.not_mem_nil, not_false_eq_true, true_and] at hv
  rw [← hv]
  unfold DefaultRoomManager.ReserveSeats
  cases m.validateSeats seats 0 [] <;> simp

/-- C4. When `ReserveSeats` fails, the returned `SeatError` describes the first failure in
validation order: the batch splits as `pre ++ e.seat :: post` with `e.index = pre.length`, every
entry of `pre` passes all five checks (so no smaller position fails), and `e.Code` is the first
check that `e.seat` fails in the order GroupIDNotFound, OutOfBound, SeatTaken,
DuplicatedPosition, InvalidDistance, all checks before it being passed by `e.seat`. -/
theorem ReserveSeats_reports_first_failure (m : DefaultRoomManager) (seats : List Seat)
    (e : SeatError) (h : (m.ReserveSeats seats).2 = some e) :
    ∃ pre post, seats = pre ++ e.seat :: post ∧ e.index = pre.length ∧
      ((∀ seat ∈ pre,
          seat.GroupID ∈ m.groupManager.groups ∧
          (0 ≤ seat.Coordinate.row ∧ seat.Coordinate.row < m.cfg.NumRows ∧
            0 ≤ seat.Coordinate.col ∧ seat.Coordinate.col < m.cfg.NumCols) ∧
          mapLookup m.reservedSeat (seat.Coordinate.AsIndex m.cfg.NumCols) = none ∧
          (∀ x ∈ m.reservedSeat,
            m.isValidDistance seat ⟨x.2, m.indexToCoordinate x.1⟩ = true)) ∧
        pre.Pairwise (fun earlier later =>
          earlier.Coordinate.AsIndex m.cfg.NumCols ≠
            later.Coordinate.AsIndex m.cfg.NumCols)) ∧
      ((e.Code = .SeatErrorCodeGroupIDNotFound ∧ e.seat.GroupID ∉ m.groupManager.groups) ∨
       (e.Code = .SeatErrorCodeOutOfBound ∧ e.seat.GroupID ∈ m.groupManager.groups ∧
         ¬ (0 ≤ e.seat.Coordinate.row ∧ e.seat.Coordinate.row < m.cfg.NumRows ∧
           0 ≤ e.seat.Coordinate.col ∧ e.seat.Coordinate.col < m.cfg.NumCols)) ∨
       (e.Code = .SeatErrorCodeSeatTaken ∧ e.seat.GroupID ∈ m.groupManager.groups ∧
         (0 ≤ e.seat.Coordinate.row ∧ e.seat.Coordinate.row < m.cfg.NumRows ∧
           0 ≤ e.seat.Coordinate.col ∧ e.seat.Coordinate.col < m.cfg.NumCols) ∧
         mapLookup m.reservedSeat (e.seat.Coordinate.AsIndex m.cfg.NumCols) ≠ none) ∨
       (e.Code = .SeatErrorCodeDuplicatedPosition ∧
         e.seat.GroupID ∈ m.groupManager.groups ∧
         (0 ≤ e.seat.Coordinate.row ∧ e.seat.Coordinate.row < m.cfg.NumRows ∧
           0 ≤ e.seat.Coordinate.col ∧ e.seat.Coordinate.col < m.cfg.NumCols) ∧
         mapLookup m.reservedSeat (e.seat.Coordinate.AsIndex m.cfg.NumCols) = none ∧
         ∃ earlier ∈ pre, earlier.Coordinate.AsIndex m.cfg.NumCols =
           e.seat.Coordinate.AsIndex m.cfg.NumCols) ∨
       (e.Code = .SeatErrorCodeInvalidDistance ∧
         e.seat.GroupID ∈ m.groupManager.groups ∧
         (0 ≤ e.seat.Coordinate.row ∧ e.seat.Coordinate.row < m.cfg.NumRows ∧
           0 ≤ e.seat.Coordinate.col ∧ e.seat.Coordinate.col < m.cfg.NumCols) ∧
         mapLookup m.reservedSeat (e.seat.Coordinate.AsIndex m.cfg.NumCols) = none ∧
         (∀ earlier ∈ pre, earlier.Coordinate.AsIndex m.cfg.NumCols ≠
           e.seat.Coordinate.AsIndex m.cfg.NumCols) ∧
         ∃ x ∈ m.reservedSeat,
           m.isValidDistance e.seat ⟨x.2, m.indexToCoordinate x.1⟩ = false)) := by
  have hv : m.validateSeats seats 0 [] = some e := by
    unfold DefaultRoomManager.ReserveSeats at h
    cases hv : m.validateSeats seats 0 [] with
    | none => simp [hv] at h
    | some e0 => simpa [hv] using h
  obtain ⟨pre, post, h1, h2, h3, h4⟩ := validateSeats_eq_some m seats 0 [] e hv
  refine ⟨pre, post, h1, by simpa using h2, ?_, ?_⟩
  · have := (validateSeats_eq_none_iff m pre 0 []).1 h3
    simpa using this
  · have hc := validateSeat_eq_some m _ e.seat e.Code h4
    simp only [List.append_nil, List.mem_reverse, List.mem_map] at hc
    rcases hc with hc | hc | hc | hc | hc
    · exact Or.inl hc
    · exact Or.inr (Or.inl hc)
    · exact Or.inr (Or.inr (Or.inl hc))
    · exact Or.inr (Or.inr (Or.inr (Or.inl hc)))
    · refine Or.inr (Or.inr (Or.inr (Or.inr ?_)))
      obtain ⟨p1, p2, p3, p4, p5, p6⟩ := hc
      exact ⟨p1, p2, p3, p4, fun s hs hEq => p5 ⟨s, hs, hEq⟩, p6⟩

/-- Witness for C4 on the 4x4 test room holding `abc` at `[0,1]`: the second entry of the batch
has an unknown group and lies outside the grid; the error names position 1 and reports the
unknown group, the check made first. -/
theorem ReserveSeats_reports_first_failure_witness :
    ((fixture.roomManager.ReserveSeats [⟨"abc", ⟨0, 1⟩⟩]).1.ReserveSeats
        [⟨"abc", ⟨2, 2⟩⟩, ⟨"nobody", ⟨9, 9⟩⟩, ⟨"abc", ⟨0, 1⟩⟩]).2 =
      some ⟨⟨"nobody", ⟨9, 9⟩⟩, .SeatErrorCodeGroupIDNotFound, 1⟩ ∧
    ∃ pre post, [(⟨"abc", ⟨2, 2⟩⟩ : Seat), ⟨"nobody", ⟨9, 9⟩⟩, ⟨"abc", ⟨0, 1⟩⟩] =
        pre ++ (⟨"nobody", ⟨9, 9⟩⟩ : Seat) :: post ∧ 1 = pre.length :=
  ⟨by decide,
    (ReserveSeats_reports_first_failure
      (fixture.roomManager.ReserveSeats [⟨"abc", ⟨0, 1⟩⟩]).1
      [⟨"abc", ⟨2, 2⟩⟩, ⟨"nobody", ⟨9, 9⟩⟩, ⟨"abc", ⟨0, 1⟩⟩]
      ⟨⟨"nobody", ⟨9, 9⟩⟩, .SeatErrorCodeGroupIDNotFound, 1⟩ (by decide)).imp
      fun _ hp => hp.imp fun _ hq => ⟨hq.1, hq.2.1⟩⟩

/-! ## The commit loop of `ReserveSeats` -/

theorem foldl_mapInsert_eq_append (numCols : Int) (seats : List Seat) (r : List (Int × String))
    (hfree : ∀ s ∈ seats, mapLookup r (s.Coordinate.AsIndex numCols) = none)
    (hdistinct : seats.Pairwise (fun a b =>
      a.Coordinate.AsIndex numCols ≠ b.Coordinate.AsIndex numCols)) :
    seats.foldl (fun r seat => mapInsert r (seat.AsIndex numCols) seat.GroupID) r =
      r ++ seats.map (fun s => (s.Coordinate.AsIndex numCols, s.GroupID)) := by
  induction seats generalizing r with
  | nil => simp
  | cons s rest ih =>
    rw [List.pairwise_cons] at hdistinct
    have hs : mapLookup r (s.Coordinate.AsIndex numCols) = none :=
      hfree s (List.mem_cons_self _ _)
    simp only [List.foldl_cons, Seat.AsIndex, List.map_cons]
    rw [mapInsert_of_lookup_none r _ _ hs]
    have := ih (r ++ [(s.Coordinate.AsIndex numCols, s.GroupID)]) (fun t ht => by
      rw [mapLookup_append, hfree t (List.mem_cons_of_mem _ ht)]
      simp [mapLookup, hdistinct.1 t ht]) hdistinct.2
    simp only [Seat.AsIndex] at this
    rw [this]
    simp

theorem mapLookup_map_of_pairwise (numCols : Int) (seats : List Seat)
    (hdistinct : seats.Pairwise (fun a b =>
      a.Coordinate.AsIndex numCols ≠ b.Coordinate.AsIndex numCols))
    (s : Seat) (hs : s ∈ seats) :
    mapLookup (seats.map (fun s => (s.Coordinate.AsIndex numCols, s.GroupID)))
      (s.Coordinate.AsIndex numCols) = some s.GroupID := by
  induction seats with
  | nil => simp at hs
  | cons hd tl ih =>
    rw [List.pairwise_cons] at hdistinct
    rcases List.mem_cons.1 hs with rfl | hmem
    · simp [mapLookup]
    · simp [mapLookup, hdistinct.1 s hmem, ih hdistinct.2 hmem]

theorem validateSeats_of_ReserveSeats_ok (m : DefaultRoomManager) (seats : List Seat)
    (h : (m.ReserveSeats seats).2 = none) : m.validateSeats seats 0 [] = none := by
  unfold DefaultRoomManager.ReserveSeats at h
  cases hv : m.validateSeats seats 0 [] with
  | none => rfl
  | some e0 => simp [hv] at h

theorem ReserveSeats_ok_reservedSeat (m : DefaultRoomManager) (seats : List Seat)
    (h : (m.ReserveSeats seats).2 = none) :
    (m.ReserveSeats seats).1 =
      { m with reservedSeat := m.reservedSeat ++
        seats.map (fun s => (s.Coordinate.AsIndex m.cfg.NumCols, s.GroupID)) } := by
  have hv := validateSeats_of_ReserveSeats_ok m seats h
  obtain ⟨h1, h2⟩ := (validateSeats_eq_none_iff m seats 0 []).1 hv
  unfold DefaultRoomManager.ReserveSeats
  simp only [hv, DefaultRoomManager.commitSeats]
  rw [foldl_mapInsert_eq_append m.cfg.NumCols seats m.reservedSeat
    (fun s hs => (h1 s hs).2.2.1) h2]

/-- C5. Postcondition and frame of a successful `ReserveSeats`: afterwards the map sends the
index of every batch entry to that entry's group id; every index that is not the index of a
batch entry has the lookup result (absent, or present with its owner) it had before; and every
index that was occupied before is still occupied by the same owner. Configuration and group
registry are untouched. -/
theorem ReserveSeats_postcondition_and_frame (m : DefaultRoomManager) (seats : List Seat)
    (h : (m.ReserveSeats seats).2 = none) :
    (∀ seat ∈ seats,
      mapLookup (m.ReserveSeats seats).1.reservedSeat (seat.Coordinate.AsIndex m.cfg.NumCols) =
        some seat.GroupID) ∧
    (∀ k, (∀ seat ∈ seats, seat.Coordinate.AsIndex m.cfg.NumCols ≠ k) →
      mapLookup (m.ReserveSeats seats).1.reservedSeat k = mapLookup m.reservedSeat k) ∧
    (∀ k g, mapLookup m.reservedSeat k = some g →
      mapLookup (m.ReserveSeats seats).1.reservedSeat k = some g) ∧
    (m.ReserveSeats seats).1.cfg = m.cfg ∧
    (m.ReserveSeats seats).1.groupManager = m.groupManager := by
  have hst := ReserveSeats_ok_reservedSeat m seats h
  obtain ⟨h1, h2⟩ := (validateSeats_eq_none_iff m seats 0 []).1
    (validateSeats_of_ReserveSeats_ok m seats h)
  rw [hst]
  refine ⟨fun seat hs => ?_, fun k hk => ?_, fun k g hg => ?_, rfl, rfl⟩
  · simp only [mapLookup_append, (h1 seat hs).2.2.1]
    simpa using mapLookup_map_of_pairwise m.cfg.NumCols seats h2 seat hs
  · have hnone : mapLookup
        (seats.map (fun s => (s.Coordinate.AsIndex m.cfg.NumCols, s.GroupID))) k = none := by
      rw [mapLookup_eq_none_iff]
      intro e he
      obtain ⟨s, hs, rfl⟩ := List.mem_map.1 he
      exact hk s hs
    simp only [mapLookup_append, hnone]
    cases mapLookup m.reservedSeat k <;> simp
  · simp only [mapLookup_append, hg]
    simp

/-- Witness for C5 on the empty 4x4 test room: reserving `abc` at `[0,1]` succeeds and the map
then sends the index of `[0,1]` to `abc`. -/
theorem ReserveSeats_postcondition_and_frame_witness :
    (fixture.roomManager.ReserveSeats [⟨"abc", ⟨0, 1⟩⟩]).2 = none ∧
    mapLookup (fixture.roomManager.ReserveSeats [⟨"abc", ⟨0, 1⟩⟩]).1.reservedSeat
      ((⟨0, 1⟩ : Coordinate).AsIndex fixture.roomManager.cfg.NumCols) = some "abc" :=
  ⟨by decide,
    (ReserveSeats_postcondition_and_frame fixture.roomManager [⟨"abc", ⟨0, 1⟩⟩]
      (by decide)).1 ⟨"abc", ⟨0, 1⟩⟩ (List.mem_singleton.2 rfl)⟩

/-! ## `CancelSeats` -/

theorem validateCancel_eq_none_iff (m : DefaultRoomManager) (coords : List Coordinate)
    (i : Nat) :
    m.validateCancel coords i = none ↔
      ∀ c ∈ coords, mapLookup m.reservedSeat (c.AsIndex m.cfg.NumCols) ≠ none := by
  induction coords generalizing i with
  | nil => simp [DefaultRoomManager.validateCancel]
  | cons c rest ih =>
    simp only [DefaultRoomManager.validateCancel, List.mem_cons, forall_eq_or_imp]
    cases hc : mapLookup m.reservedSeat (c.AsIndex m.cfg.NumCols) with
    | none => simp
    | some g => simp [ih]

theorem validateCancel_eq_some (m : DefaultRoomManager) (coords : List Coordinate) (i : Nat)
    (e : SeatError) (h : m.validateCancel coords i = some e) :
    ∃ pre post, coords = pre ++ e.seat.Coordinate :: post ∧ e.index = i + pre.length ∧
      (∀ c ∈ pre, mapLookup m.reservedSeat (c.AsIndex m.cfg.NumCols) ≠ none) ∧
      mapLookup m.reservedSeat (e.seat.Coordinate.AsIndex m.cfg.NumCols) = none ∧
      e.Code = .SeatErrorCodeNotReserved ∧ e.seat.GroupID = "" := by
  induction coords generalizing i with
  | nil => simp [DefaultRoomManager.validateCancel] at h
  | cons c rest ih =>
    simp only [DefaultRoomManager.validateCancel] at h
    cases hc : mapLookup m.reservedSeat (c.AsIndex m.cfg.NumCols) with
    | none =>
      simp only [hc, Option.isNone_none, if_true, Option.some.injEq] at h
      subst h
      exact ⟨[], rest, by simp, by simp, by simp, hc, rfl, rfl⟩
    | some g =>
      simp only [hc, Option.isNone_some, Bool.false_eq_true, if_false] at h
      obtain ⟨pre, post, h1, h2, h3, h4, h5, h6⟩ := ih _ h
      refine ⟨c :: pre, post, by simp [h1], by simp [h2]; omega, ?_, h4, h5, h6⟩
      intro d hd
      rcases List.mem_cons.1 hd with rfl | hmem
      · simp [hc]
      · exact h3 d hmem

/-- C6. `CancelSeats` is all-or-nothing with a first-failure report: it fails exactly when
some coordinate of the batch has an index that is not a key of the map before the call; the
error then has code NotReserved, the batch splits as `pre ++ c :: post` with the error index
`pre.length`, every coordinate of `pre` occupied and `c`, the error's coordinate, not occupied
(so the index is the smallest such position), and the manager is left as it was. -/
theorem CancelSeats_all_or_nothing (m : DefaultRoomManager) (coordinates : List Coordinate) :
    ((m.CancelSeats coordinates).2 ≠ none ↔
      ∃ c ∈ coordinates, mapLookup m.reservedSeat (c.AsIndex m.cfg.NumCols) = none) ∧
    (∀ e, (m.CancelSeats coordinates).2 = some e →
      e.Code = .SeatErrorCodeNotReserved ∧
      (∃ pre post, coordinates = pre ++ e.seat.Coordinate :: post ∧ e.index = pre.length ∧
        (∀ c ∈ pre, mapLookup m.reservedSeat (c.AsIndex m.cfg.NumCols) ≠ none)) ∧
      mapLookup m.reservedSeat (e.seat.Coordinate.AsIndex m.cfg.NumCols) = none ∧
      (m.CancelSeats coordinates).1 = m ∧
      (m.CancelSeats coordinates).1.reservedSeat = m.reservedSeat) := by
  unfold DefaultRoomManager.CancelSeats
  cases hv : m.validateCancel coordinates 0 with
  | none =>
    have := (validateCancel_eq_none_iff m coordinates 0).1 hv
    simp only [ne_eq, not_true_eq_false, false_iff, not_exists, not_and]
    exact ⟨fun c hc => this c hc, fun e he => by simp at he⟩
  | some e0 =>
    obtain ⟨pre, post, h1, h2, h3, h4, h5, h6⟩ := validateCancel_eq_some m coordinates 0 e0 hv
    refine ⟨⟨fun _ => ⟨e0.seat.Coordinate, by rw [h1]; simp, h4⟩, fun _ => by simp⟩, ?_⟩
    intro e he
    simp only [Option.some.injEq] at he
    subst he
    exact ⟨h5, ⟨pre, post, h1, by simpa using h2, h3⟩, h4, rfl, rfl⟩

theorem foldl_mapDelete_eq_filter (ks : List Int) (r : List (Int × String)) :
    ks.foldl mapDelete r = r.filter (fun e => decide (e.1 ∉ ks)) := by
  induction ks generalizing r with
  | nil => simp
  | cons k rest ih =>
    simp only [List.foldl_cons, ih, mapDelete, List.filter_filter]
    congr 1
    funext e
    simp only [List.mem_cons, not_or, Bool.decide_and, ne_eq]
    rw [Bool.and_comm]

theorem CancelSeats_ok_reservedSeat (m : DefaultRoomManager) (coordinates : List Coordinate)
    (h : (m.CancelSeats coordinates).2 = none) :
    (m.CancelSeats coordinates).1 =
      { m with reservedSeat := m.reservedSeat.filter (fun e =>
        decide (e.1 ∉ coordinates.map (fun c => c.AsIndex m.cfg.NumCols))) } := by
  unfold DefaultRoomManager.CancelSeats at h ⊢
  cases hv : m.validateCancel coordinates 0 with
  | some e0 => simp [hv] at h
  | none => simp only [foldl_mapDelete_eq_filter]

theorem CancelSeats_ok_iff (m : DefaultRoomManager) (coordinates : List Coordinate) :
    (m.CancelSeats coordinates).2 = none ↔
      ∀ c ∈ coordinates, mapLookup m.reservedSeat (c.AsIndex m.cfg.NumCols) ≠ none := by
  rw [← validateCancel_eq_none_iff m coordinates 0]
  unfold DefaultRoomManager.CancelSeats
  cases m.validateCancel coordinates 0 <;> simp

/-- C8. Reserve/cancel round trip: if `ReserveSeats` succeeds on a batch, then `CancelSeats` on
the coordinates of that batch succeeds on the resulting manager and gives back exactly the
manager, and so the reservation map, the reserve started from; hence `ListAvailableSeats`
returns the same result for every group filter before the reserve and after the cancel. -/
theorem ReserveSeats_then_CancelSeats_restores (m : DefaultRoomManager) (seats : List Seat)
    (h : (m.ReserveSeats seats).2 = none) :
    ((m.ReserveSeats seats).1.CancelSeats (seats.map (fun s => s.Coordinate))).2 = none ∧
    ((m.ReserveSeats seats).1.CancelSeats (seats.map (fun s => s.Coordinate))).1 = m ∧
    ((m.ReserveSeats seats).1.CancelSeats
      (seats.map (fun s => s.Coordinate))).1.reservedSeat = m.reservedSeat ∧
    (∀ groupID,
      ((m.ReserveSeats seats).1.CancelSeats
        (seats.map (fun s => s.Coordinate))).1.ListAvailableSeats groupID =
      m.ListAvailableSeats groupID) := by
  obtain ⟨h1, h2⟩ := (validateSeats_eq_none_iff m seats 0 []).1
    (validateSeats_of_ReserveSeats_ok m seats h)
  have hst := ReserveSeats_ok_reservedSeat m seats h
  have hok : ((m.ReserveSeats seats).1.CancelSeats
      (seats.map (fun s => s.Coordinate))).2 = none := by
    rw [CancelSeats_ok_iff, hst]
    intro c hc
    obtain ⟨s, hs, rfl⟩ := List.mem_map.1 hc
    simp only [mapLookup_append, (h1 s hs).2.2.1]
    simp [mapLookup_map_of_pairwise m.cfg.NumCols seats h2 s hs]
  have hback : ((m.ReserveSeats seats).1.CancelSeats
      (seats.map (fun s => s.Coordinate))).1 = m := by
    rw [CancelSeats_ok_reservedSeat _ _ hok, hst]
    simp only [List.filter_append, List.map_map]
    have hkeep : m.reservedSeat.filter (fun e => decide (e.1 ∉
        List.map ((fun c => c.AsIndex m.cfg.NumCols) ∘ fun s => s.Coordinate) seats)) =
        m.reservedSeat := by
      rw [List.filter_eq_self]
      intro e he
      simp only [List.mem_map, Function.comp_apply, not_exists, not_and, decide_eq_true_eq]
      intro s hs hEq
      exact (mapLookup_eq_none_iff _ _).1 (h1 s hs).2.2.1 e he hEq.symm
    have hdrop : (seats.map (fun s => (s.Coordinate.AsIndex m.cfg.NumCols, s.GroupID))).filter
        (fun e => decide (e.1 ∉
          List.map ((fun c => c.AsIndex m.cfg.NumCols) ∘ fun s => s.Coordinate) seats)) =
        [] := by
      rw [List.filter_eq_nil_iff]
      intro e he
      obtain ⟨s, hs, rfl⟩ := List.mem_map.1 he
      simp only [List.mem_map, Function.comp_apply, not_exists, not_and, decide_eq_true_eq,
        not_forall, Classical.not_imp, not_not]
      exact ⟨s, hs, rfl⟩
    rw [hkeep, hdrop]
    simp
  exact ⟨hok, hback, by rw [hback], fun g => by rw [hback]⟩

/-- Witness for C8 on the empty 4x4 test room, the scenario of `TestRoomController_CancelSeats`:
reserving `abc` at `[0,1]` and cancelling `[0,1]` gives back the empty room. -/
theorem ReserveSeats_then_CancelSeats_restores_witness :
    (fixture.roomManager.ReserveSeats [⟨"abc", ⟨0, 1⟩⟩]).2 = none ∧
    ((fixture.roomManager.ReserveSeats [⟨"abc", ⟨0, 1⟩⟩]).1.CancelSeats
      ([(⟨"abc", ⟨0, 1⟩⟩ : Seat)].map (fun s => s.Coordinate))).1 = fixture.roomManager :=
  ⟨by decide,
    (ReserveSeats_then_CancelSeats_restores fixture.roomManager [⟨"abc", ⟨0, 1⟩⟩]
      (by decide)).2.1⟩

/-! ## `ListAvailableSeats` -/

/-- C10. `ListAvailableSeats` fails, with `ErrGroupIdNotFound`, exactly when the group filter
is non-empty and not in the group registry, whatever the reservation map holds; with an empty
filter or a registered filter it returns a mapping and no error. -/
theorem ListAvailableSeats_error_iff (m : DefaultRoomManager) (groupID : String) :
    (m.ListAvailableSeats groupID = .error .ErrGroupIdNotFound ↔
      groupID ≠ "" ∧ groupID ∉ m.groupManager.groups) ∧
    ((∃ err, m.ListAvailableSeats groupID = .error err) ↔
      groupID ≠ "" ∧ groupID ∉ m.groupManager.groups) ∧
    ((groupID = "" ∨ groupID ∈ m.groupManager.groups) →
      ∃ res, m.ListAvailableSeats groupID = .ok res) := by
  unfold DefaultRoomManager.ListAvailableSeats
  by_cases h1 : groupID = ""
  · simp [h1]
  · by_cases h2 : groupID ∈ m.groupManager.groups
    · have := (HasGroupID_iff m.groupManager groupID).2 h2
      simp [h1, h2, this]
    · have : m.groupManager.HasGroupID groupID = false := by
        rw [← Bool.not_eq_true, HasGroupID_iff]; exact h2
      simp [h1, h2, this]
      exact ⟨.ErrGroupIdNotFound, trivial⟩

theorem lookup_bucket_init (gs : List String) (b : List (String × List Coordinate))
    (g : String) :
    mapLookup (gs.foldl (fun b g => mapInsert b g []) b) g =
      if g ∈ gs then some [] else mapLookup b g := by
  induction gs generalizing b with
  | nil => simp
  | cons x xs ih =>
    simp only [List.foldl_cons, ih, List.mem_cons]
    by_cases hx : g ∈ xs
    · simp [hx]
    · by_cases hg : g = x
      · subst hg; simp [hx, mapLookup_mapInsert_self]
      · simp [hx, hg, mapLookup_mapInsert_ne _ _ _ _ hg]

theorem lookup_inner_fold (valid : String → Bool) (c : Coordinate) (gs : List String)
    (b : List (String × List Coordinate)) (g : String) (l : List Coordinate)
    (hb : mapLookup b g = some l) :
    mapLookup (gs.foldl (fun b groupID =>
      if valid groupID then mapInsert b groupID ((mapLookup b groupID).getD [] ++ [c])
      else b) b) g =
      some (l ++ List.replicate ((gs.filter valid).count g) c) := by
  induction gs generalizing b l with
  | nil => simp [hb]
  | cons x xs ih =>
    simp only [List.foldl_cons]
    by_cases hv : valid x = true
    · by_cases hg : g = x
      · subst hg
        rw [ih _ (l ++ [c]) (by simp [hv, mapLookup_mapInsert_self, hb])]
        simp [List.filter_cons, hv, List.replicate_succ]
      · rw [ih _ l (by simp [hv, mapLookup_mapInsert_ne _ _ _ _ hg, hb])]
        simp [List.filter_cons, hv, List.count_cons, Ne.symm hg]
    · rw [ih _ l (by simp [hv, hb])]
      simp [List.filter_cons, hv]

theorem lookup_inner_fold_of_not_mem (valid : String → Bool) (c : Coordinate)
    (gs : List String) (b : List (String × List Coordinate)) (g : String) (hg : g ∉ gs) :
    mapLookup (gs.foldl (fun b groupID =>
      if valid groupID then mapInsert b groupID ((mapLookup b groupID).getD [] ++ [c])
      else b) b) g = mapLookup b g := by
  induction gs generalizing b with
  | nil => simp
  | cons x xs ih =>
    simp only [List.mem_cons, not_or] at hg
    simp only [List.foldl_cons]
    rw [ih _ hg.2]
    by_cases hv : valid x = true
    · simp [hv, mapLookup_mapInsert_ne _ _ _ _ hg.1]
    · simp [hv]

theorem lookup_listStep (m : DefaultRoomManager) (r : List (Int × String))
    (gs : List String) (b : List (String × List Coordinate)) (i : Int) (g : String)
    (l : List Coordinate) (hb : mapLookup b g = some l) :
    mapLookup (m.listStep r gs b i) g =
      some (l ++ (if (mapLookup r i).isSome then []
        else List.replicate
          ((gs.filter (fun x => m.candidateValid r x (m.indexToCoordinate i))).count g)
          (m.indexToCoordinate i))) := by
  unfold DefaultRoomManager.listStep
  by_cases hr : (mapLookup r i).isSome = true
  · simp [hr, hb]
  · simp only [hr, if_false, Bool.false_eq_true]
    exact lookup_inner_fold _ _ gs b g l hb

theorem lookup_listStep_of_not_mem (m : DefaultRoomManager) (r : List (Int × String))
    (gs : List String) (b : List (String × List Coordinate)) (i : Int) (g : String)
    (hg : g ∉ gs) :
    mapLookup (m.listStep r gs b i) g = mapLookup b g := by
  unfold DefaultRoomManager.listStep
  by_cases hr : (mapLookup r i).isSome = true
  · simp [hr]
  · simp only [hr, if_false, Bool.false_eq_true]
    exact lookup_inner_fold_of_not_mem _ _ gs b g hg

theorem lookup_cells_fold (m : DefaultRoomManager) (r : List (Int × String))
    (gs : List String) (cells : List Int) (b : List (String × List Coordinate)) (g : String)
    (l : List Coordinate) (hb : mapLookup b g = some l) :
    mapLookup (cells.foldl (m.listStep r gs) b) g =
      some (l ++ cells.flatMap (fun i => if (mapLookup r i).isSome then []
        else List.replicate
          ((gs.filter (fun x => m.candidateValid r x (m.indexToCoordinate i))).count g)
          (m.indexToCoordinate i))) := by
  induction cells generalizing b l with
  | nil => simp [hb]
  | cons i rest ih =>
    simp only [List.foldl_cons, List.flatMap_cons]
    rw [ih _ _ (lookup_listStep m r gs b i g l hb)]
    simp

theorem lookup_cells_fold_of_not_mem (m : DefaultRoomManager) (r : List (Int × String))
    (gs : List String) (cells : List Int) (b : List (String × List Coordinate)) (g : String)
    (hg : g ∉ gs) :
    mapLookup (cells.foldl (m.listStep r gs) b) g = mapLookup b g := by
  induction cells generalizing b with
  | nil => simp
  | cons i rest ih =>
    simp only [List.foldl_cons]
    rw [ih, lookup_listStep_of_not_mem m r gs b i g hg]

theorem lookup_list_result (m : DefaultRoomManager) (r : List (Int × String))
    (gs : List String) (cells : List Int) (g : String) :
    mapLookup (cells.foldl (m.listStep r gs) (gs.foldl (fun b g => mapInsert b g []) [])) g =
      if g ∈ gs then
        some (cells.flatMap (fun i => if (mapLookup r i).isSome then []
          else List.replicate
            ((gs.filter (fun x => m.candidateValid r x (m.indexToCoordinate i))).count g)
            (m.indexToCoordinate i)))
      else none := by
  by_cases hg : g ∈ gs
  · have hb : mapLookup (gs.foldl (fun b g => mapInsert b g [])
        ([] : List (String × List Coordinate))) g = some [] := by
      rw [lookup_bucket_init]; simp [hg]
    rw [lookup_cells_fold m r gs cells _ g [] hb]
    simp [hg]
  · rw [lookup_cells_fold_of_not_mem m r gs cells _ g hg, lookup_bucket_init]
    simp [hg, mapLookup]

/-- The sequence `ListAvailableSeats` builds for group `g` when its target groups are `gs`:
the free cells in index order, each once per occurrence of `g` among the targets for which
the cell is valid. -/
theorem ListAvailableSeats_ok_lookup (m : DefaultRoomManager) (groupID : String)
    (res : List (String × List Coordinate)) (h : m.ListAvailableSeats groupID = .ok res)
    (g : String) :
    mapLookup res g =
      if g ∈ (if groupID = "" then m.groupManager.ListGroupIDs else [groupID]) then
        some (((List.range (wrap64 (m.cfg.NumRows * m.cfg.NumCols)).toNat).map
          Int.ofNat).flatMap (fun i => if (mapLookup m.reservedSeat i).isSome then []
            else List.replicate
              (((if groupID = "" then m.groupManager.ListGroupIDs else [groupID]).filter
                (fun x => m.candidateValid m.reservedSeat x (m.indexToCoordinate i))).count g)
              (m.indexToCoordinate i)))
      else none := by
  unfold DefaultRoomManager.ListAvailableSeats at h
  split_ifs at h with h1 h2
  · simp only [Except.ok.injEq] at h
    subst h
    rw [if_pos h2]
    exact lookup_list_result m m.reservedSeat _ _ g
  · simp only [Except.ok.injEq] at h
    subst h
    rw [if_neg h2]
    exact lookup_list_result m m.reservedSeat _ _ g

end manager

/-! ## Index arithmetic without overflow -/

theorem wrap64_eq_self (x : Int) (h1 : -9223372036854775808 ≤ x)
    (h2 : x < 9223372036854775808) : wrap64 x = x := by
  unfold wrap64
  omega

namespace mathutil

theorem AbsDiff_comm (x y : Int) : AbsDiff x y = AbsDiff y x := by
  unfold AbsDiff
  split_ifs with h1 h2 h2
  · omega
  · rfl
  · rfl
  · have : x = y := by omega
    subst this
    rfl

end mathutil

namespace manager

theorem isValidDistance_comm (m : DefaultRoomManager) (a b : Seat) :
    m.isValidDistance a b = m.isValidDistance b a := by
  unfold DefaultRoomManager.isValidDistance
  rw [mathutil.AbsDiff_comm a.Row b.Row, mathutil.AbsDiff_comm a.Col b.Col]
  by_cases h : a.GroupID = b.GroupID
  · simp [h]
  · simp [h, Ne.symm h]

theorem AsIndex_of_inGrid (numRows numCols : Int) (c : Coordinate)
    (hN : numRows * numCols < 9223372036854775808)
    (h : 0 ≤ c.row ∧ c.row < numRows ∧ 0 ≤ c.col ∧ c.col < numCols) :
    c.AsIndex numCols = c.row * numCols + c.col ∧
      0 ≤ c.row * numCols + c.col ∧ c.row * numCols + c.col < numRows * numCols := by
  obtain ⟨h1, h2, h3, h4⟩ := h
  have hC : 0 < numCols := by omega
  have hmul : c.row * numCols ≤ (numRows - 1) * numCols :=
    Int.mul_le_mul_of_nonneg_right (by omega) (by omega)
  have hexp : (numRows - 1) * numCols = numRows * numCols - numCols := by ring
  have hnn : 0 ≤ c.row * numCols := Int.mul_nonneg h1 (by omega)
  refine ⟨?_, by omega, by omega⟩
  unfold Coordinate.AsIndex
  rw [wrap64_eq_self (c.row * numCols) (by omega) (by omega)]
  exact wrap64_eq_self _ (by omega) (by omega)

theorem indexToCoordinate_of_nonneg (m : DefaultRoomManager) (i : Int) (hi : 0 ≤ i)
    (hC : 0 < m.cfg.NumCols) :
    m.indexToCoordinate i = ⟨i / m.cfg.NumCols, i % m.cfg.NumCols⟩ := by
  unfold DefaultRoomManager.indexToCoordinate
  rw [Int.tdiv_eq_ediv hi (by omega), Int.tmod_eq_emod hi (by omega)]

theorem indexToCoordinate_AsIndex (m : DefaultRoomManager) (c : Coordinate)
    (hN : m.cfg.NumRows * m.cfg.NumCols < 9223372036854775808)
    (h : 0 ≤ c.row ∧ c.row < m.cfg.NumRows ∧ 0 ≤ c.col ∧ c.col < m.cfg.NumCols) :
    m.indexToCoordinate (c.AsIndex m.cfg.NumCols) = c := by
  obtain ⟨e1, e2, e3⟩ := AsIndex_of_inGrid m.cfg.NumRows m.cfg.NumCols c hN h
  have hC : 0 < m.cfg.NumCols := by omega
  rw [e1, indexToCoordinate_of_nonneg m _ e2 hC]
  have hd : (c.row * m.cfg.NumCols + c.col) / m.cfg.NumCols = c.row := by
    rw [Int.add_comm, Int.add_mul_ediv_right _ _ (by omega),
      Int.ediv_eq_zero_of_lt h.2.2.1 h.2.2.2]
    simp
  have hm : (c.row * m.cfg.NumCols + c.col) % m.cfg.NumCols = c.col := by
    rw [Int.add_comm, Int.add_mul_emod_self, Int.emod_eq_of_lt h.2.2.1 h.2.2.2]
  rw [hd, hm]

theorem inGrid_of_index (m : DefaultRoomManager) (i : Int) (hi : 0 ≤ i)
    (hC : 0 < m.cfg.NumCols) (hlt : i < m.cfg.NumRows * m.cfg.NumCols)
    (hN : m.cfg.NumRows * m.cfg.NumCols < 9223372036854775808) :
    (0 ≤ (m.indexToCoordinate i).row ∧ (m.indexToCoordinate i).row < m.cfg.NumRows ∧
      0 ≤ (m.indexToCoordinate i).col ∧ (m.indexToCoordinate i).col < m.cfg.NumCols) ∧
    (m.indexToCoordinate i).AsIndex m.cfg.NumCols = i := by
  rw [indexToCoordinate_of_nonneg m i hi hC]
  have g1 : 0 ≤ i / m.cfg.NumCols := Int.ediv_nonneg hi (by omega)
  have g2 : i / m.cfg.NumCols < m.cfg.NumRows := Int.ediv_lt_of_lt_mul hC hlt
  have g3 : 0 ≤ i % m.cfg.NumCols := Int.emod_nonneg i (by omega)
  have g4 : i % m.cfg.NumCols < m.cfg.NumCols := Int.emod_lt_of_pos i hC
  refine ⟨⟨g1, g2, g3, g4⟩, ?_⟩
  have := (AsIndex_of_inGrid m.cfg.NumRows m.cfg.NumCols
    ⟨i / m.cfg.NumCols, i % m.cfg.NumCols⟩ hN ⟨g1, g2, g3, g4⟩).1
  rw [this]
  exact Int.ediv_add_emod' i m.cfg.NumCols

theorem candidateValid_iff (m : DefaultRoomManager) (r : List (Int × String)) (g : String)
    (c : Coordinate) :
    m.candidateValid r g c = true ↔
      ∀ x ∈ r, m.isValidDistance ⟨g, c⟩ ⟨x.2, m.indexToCoordinate x.1⟩ = true := by
  unfold DefaultRoomManager.candidateValid
  rw [List.all_eq_true]
  constructor
  · intro h x hx
    rw [isValidDistance_comm]
    exact h x hx
  · intro h x hx
    rw [isValidDistance_comm]
    exact h x hx

theorem mem_available_iff (m : DefaultRoomManager) (gs : List String) (g : String)
    (hg : g ∈ gs) (hC : 0 < m.cfg.NumCols)
    (hR : 0 < m.cfg.NumRows)
    (hN : m.cfg.NumRows * m.cfg.NumCols < 9223372036854775808) (c : Coordinate) :
    c ∈ ((List.range (wrap64 (m.cfg.NumRows * m.cfg.NumCols)).toNat).map
        Int.ofNat).flatMap (fun i => if (mapLookup m.reservedSeat i).isSome then []
          else List.replicate
            ((gs.filter (fun x =>
              m.candidateValid m.reservedSeat x (m.indexToCoordinate i))).count g)
            (m.indexToCoordinate i)) ↔
      (0 ≤ c.row ∧ c.row < m.cfg.NumRows ∧ 0 ≤ c.col ∧ c.col < m.cfg.NumCols) ∧
      mapLookup m.reservedSeat (c.AsIndex m.cfg.NumCols) = none ∧
      (∀ x ∈ m.reservedSeat,
        m.isValidDistance ⟨g, c⟩ ⟨x.2, m.indexToCoordinate x.1⟩ = true) := by
  have hpos : 0 < m.cfg.NumRows * m.cfg.NumCols := Int.mul_pos hR hC
  have hw : wrap64 (m.cfg.NumRows * m.cfg.NumCols) = m.cfg.NumRows * m.cfg.NumCols :=
    wrap64_eq_self _ (by omega) hN
  rw [hw]
  simp only [List.mem_flatMap, List.mem_map, List.mem_range]
  constructor
  · rintro ⟨i, ⟨n, hn, rfl⟩, hc⟩
    have hlt : (n : Int) < m.cfg.NumRows * m.cfg.NumCols := by omega
    simp only [Int.ofNat_eq_coe] at hc ⊢
    cases hl : mapLookup m.reservedSeat (n : Int) with
    | some v => simp [hl] at hc
    | none =>
      simp only [hl, Option.isSome_none, Bool.false_eq_true, if_false,
        List.mem_replicate] at hc
      obtain ⟨hcount, rfl⟩ := hc
      have hmem : g ∈ gs.filter (fun x =>
          m.candidateValid m.reservedSeat x (m.indexToCoordinate (n : Int))) :=
        List.count_pos_iff.1 (Nat.pos_of_ne_zero hcount)
      obtain ⟨q1, q2⟩ := inGrid_of_index m (n : Int) (Int.ofNat_nonneg n) hC hlt hN
      refine ⟨q1, by rw [q2]; exact hl, ?_⟩
      exact (candidateValid_iff m _ g _).1 (List.mem_filter.1 hmem).2
  · rintro ⟨hin, hfree, hvalid⟩
    obtain ⟨e1, e2, e3⟩ := AsIndex_of_inGrid m.cfg.NumRows m.cfg.NumCols c hN hin
    refine ⟨c.AsIndex m.cfg.NumCols, ⟨(c.AsIndex m.cfg.NumCols).toNat, ?_, ?_⟩, ?_⟩
    · omega
    · show ((c.AsIndex m.cfg.NumCols).toNat : Int) = _
      omega
    · rw [hfree, indexToCoordinate_AsIndex m c hN hin]
      simp only [Option.isSome_none, Bool.false_eq_true, if_false, List.mem_replicate,
        and_true]
      have hmem : g ∈ gs.filter (fun x => m.candidateValid m.reservedSeat x c) :=
        List.mem_filter.2 ⟨hg, (candidateValid_iff m _ g c).2 hvalid⟩
      exact Nat.ne_of_gt (List.count_pos_iff.2 hmem)

/-- C9. Characterisation of availability, for a room with `NumRows > 0`, `NumCols > 0` and
fewer than `2^63` cells: for every key `g` of a successful `ListAvailableSeats` result and every
coordinate `c`, `c` occurs in the sequence returned for `g` exactly when `c` is inside the grid,
the index of `c` is not a key of the reservation map, and `isValidDistance` holds between
`(g, c)` and every seat of the map, the seat of entry `(j, owner)` being
`(owner, indexToCoordinate j)`. -/
theorem ListAvailableSeats_mem_iff (m : DefaultRoomManager)
    (hR : 0 < m.cfg.NumRows) (hC : 0 < m.cfg.NumCols)
    (hN : m.cfg.NumRows * m.cfg.NumCols < 9223372036854775808)
    (groupID : String) (res : List (String × List Coordinate))
    (h : m.ListAvailableSeats groupID = .ok res)
    (g : String) (l : List Coordinate) (hl : mapLookup res g = some l) (c : Coordinate) :
    c ∈ l ↔
      (0 ≤ c.row ∧ c.row < m.cfg.NumRows ∧ 0 ≤ c.col ∧ c.col < m.cfg.NumCols) ∧
      mapLookup m.reservedSeat (c.AsIndex m.cfg.NumCols) = none ∧
      (∀ x ∈ m.reservedSeat,
        m.isValidDistance ⟨g, c⟩ ⟨x.2, m.indexToCoordinate x.1⟩ = true) := by
  have hlk := ListAvailableSeats_ok_lookup m groupID res h g
  rw [hl] at hlk
  by_cases hg : g ∈ (if groupID = "" then m.groupManager.ListGroupIDs else [groupID])
  · rw [if_pos hg, Option.some.injEq] at hlk
    rw [hlk]
    exact mem_available_iff m _ g hg hC hR hN c
  · rw [if_neg hg] at hlk
    exact absurd hlk (by simp)

/-- Witness for C9, the scenario of `TestRoomController_ReserveSeats`: on the 4x4 room with
minimum distance 3 and `abc` at `[0,1]`, listing all groups gives `abc` every cell but `[0,1]`
and `xyz` the eight cells at distance 3 or more from `[0,1]`; `[1,3]` is returned for `xyz`,
so it is in the grid, free, and at a valid distance from every reserved seat. -/
theorem ListAvailableSeats_mem_iff_witness :
    (fixture.roomManager.ReserveSeats [⟨"abc", ⟨0, 1⟩⟩]).1.ListAvailableSeats "" =
      .ok [("abc", [⟨0, 0⟩, ⟨0, 2⟩, ⟨0, 3⟩, ⟨1, 0⟩, ⟨1, 1⟩, ⟨1, 2⟩, ⟨1, 3⟩, ⟨2, 0⟩, ⟨2, 1⟩,
              ⟨2, 2⟩, ⟨2, 3⟩, ⟨3, 0⟩, ⟨3, 1⟩, ⟨3, 2⟩, ⟨3, 3⟩]),
           ("xyz", [⟨1, 3⟩, ⟨2, 0⟩, ⟨2, 2⟩, ⟨2, 3⟩, ⟨3, 0⟩, ⟨3, 1⟩, ⟨3, 2⟩, ⟨3, 3⟩])] ∧
    ((0 : Int) ≤ 1 ∧ (1 : Int) < 4 ∧ (0 : Int) ≤ 3 ∧ (3 : Int) < 4) ∧
    mapLookup (fixture.roomManager.ReserveSeats [⟨"abc", ⟨0, 1⟩⟩]).1.reservedSeat
      ((⟨1, 3⟩ : Coordinate).AsIndex 4) = none :=
  ⟨rfl,
    ((ListAvailableSeats_mem_iff (fixture.roomManager.ReserveSeats [⟨"abc", ⟨0, 1⟩⟩]).1
      (by decide) (by decide) (by decide) ""
      [("abc", [⟨0, 0⟩, ⟨0, 2⟩, ⟨0, 3⟩, ⟨1, 0⟩, ⟨1, 1⟩, ⟨1, 2⟩, ⟨1, 3⟩, ⟨2, 0⟩, ⟨2, 1⟩,
              ⟨2, 2⟩, ⟨2, 3⟩, ⟨3, 0⟩, ⟨3, 1⟩, ⟨3, 2⟩, ⟨3, 3⟩]),
           ("xyz", [⟨1, 3⟩, ⟨2, 0⟩, ⟨2, 2⟩, ⟨2, 3⟩, ⟨3, 0⟩, ⟨3, 1⟩, ⟨3, 2⟩, ⟨3, 3⟩])]
      rfl "xyz" [⟨1, 3⟩, ⟨2, 0⟩, ⟨2, 2⟩, ⟨2, 3⟩, ⟨3, 0⟩, ⟨3, 1⟩, ⟨3, 2⟩, ⟨3, 3⟩]
      (by decide) ⟨1, 3⟩).1 (by decide)).1,
    ((ListAvailableSeats_mem_iff (fixture.roomManager.ReserveSeats [⟨"abc", ⟨0, 1⟩⟩]).1
      (by decide) (by decide) (by decide) ""
      [("abc", [⟨0, 0⟩, ⟨0, 2⟩, ⟨0, 3⟩, ⟨1, 0⟩, ⟨1, 1⟩, ⟨1, 2⟩, ⟨1, 3⟩, ⟨2, 0⟩, ⟨2, 1⟩,
              ⟨2, 2⟩, ⟨2, 3⟩, ⟨3, 0⟩, ⟨3, 1⟩, ⟨3, 2⟩, ⟨3, 3⟩]),
           ("xyz", [⟨1, 3⟩, ⟨2, 0⟩, ⟨2, 2⟩, ⟨2, 3⟩, ⟨3, 0⟩, ⟨3, 1⟩, ⟨3, 2⟩, ⟨3, 3⟩])]
      rfl "xyz" [⟨1, 3⟩, ⟨2, 0⟩, ⟨2, 2⟩, ⟨2, 3⟩, ⟨3, 0⟩, ⟨3, 1⟩, ⟨3, 2⟩, ⟨3, 3⟩]
      (by decide) ⟨1, 3⟩).1 (by decide)).2.1⟩

/-- C2, the code at the failing input. From the empty 4x4 test room with minimum distance 3,
one `ReserveSeats` call with the batch `abc` at `[0,0]`, `xyz` at `[0,1]` succeeds: the state
it leaves is reachable and holds two seats of different groups whose coordinates
`indexToCoordinate 0` and `indexToCoordinate 1` are at Manhattan distance 1, below the
minimum distance; `isValidDistance` itself rejects the pair, and the same two seats sent in
two calls are refused: the second call returns InvalidDistance. -/
theorem ReserveSeats_batch_breaks_distance :
    Reachable fixture.cfg fixture.groupManager
      (fixture.roomManager.ReserveSeats [⟨"abc", ⟨0, 0⟩⟩, ⟨"xyz", ⟨0, 1⟩⟩]).1 ∧
    (fixture.roomManager.ReserveSeats [⟨"abc", ⟨0, 0⟩⟩, ⟨"xyz", ⟨0, 1⟩⟩]).2 = none ∧
    mapLookup (fixture.roomManager.ReserveSeats
      [⟨"abc", ⟨0, 0⟩⟩, ⟨"xyz", ⟨0, 1⟩⟩]).1.reservedSeat 0 = some "abc" ∧
    mapLookup (fixture.roomManager.ReserveSeats
      [⟨"abc", ⟨0, 0⟩⟩, ⟨"xyz", ⟨0, 1⟩⟩]).1.reservedSeat 1 = some "xyz" ∧
    (((fixture.roomManager.indexToCoordinate 0).row -
        (fixture.roomManager.indexToCoordinate 1).row).natAbs +
      ((fixture.roomManager.indexToCoordinate 0).col -
        (fixture.roomManager.indexToCoordinate 1).col).natAbs = 1) ∧
    (1 : Int) < fixture.roomManager.cfg.MinDistance ∧
    fixture.roomManager.isValidDistance
      ⟨"abc", fixture.roomManager.indexToCoordinate 0⟩
      ⟨"xyz", fixture.roomManager.indexToCoordinate 1⟩ = false ∧
    ((fixture.roomManager.ReserveSeats [⟨"abc", ⟨0, 0⟩⟩]).1.ReserveSeats
      [⟨"xyz", ⟨0, 1⟩⟩]).2 = some ⟨⟨"xyz", ⟨0, 1⟩⟩, .SeatErrorCodeInvalidDistance, 0⟩ :=
  ⟨Reachable.reserve _ _ Reachable.init, by decide, by decide, by decide, by decide,
    by decide, by decide, by decide⟩

/-- C7, the code at the failing input. In the 4x4 test room with `abc` at `[1,1]`, a reachable
state, the cancellation request for `[0,5]` passes `SeatsCancellation.Valid`; no occupied seat
has coordinate `[0,5]`, which lies outside the grid, yet `CancelSeats` returns no error and
index 5, the cell `[1,1]` owned by `abc`, is free afterwards. `ReserveSeats` refuses the same
coordinate with OutOfBound. -/
theorem CancelSeats_out_of_grid_frees_cell :
    Reachable fixture.cfg fixture.groupManager
      (fixture.roomManager.ReserveSeats [⟨"abc", ⟨1, 1⟩⟩]).1 ∧
    request.SeatsCancellation.Valid ⟨[⟨0, 5⟩]⟩ = [] ∧
    (∀ x ∈ (fixture.roomManager.ReserveSeats [⟨"abc", ⟨1, 1⟩⟩]).1.reservedSeat,
      fixture.roomManager.indexToCoordinate x.1 ≠ ⟨0, 5⟩) ∧
    ((fixture.roomManager.ReserveSeats [⟨"abc", ⟨1, 1⟩⟩]).1.CancelSeats [⟨0, 5⟩]).2 = none ∧
    mapLookup (fixture.roomManager.ReserveSeats [⟨"abc", ⟨1, 1⟩⟩]).1.reservedSeat 5 =
      some "abc" ∧
    fixture.roomManager.indexToCoordinate 5 = ⟨1, 1⟩ ∧
    mapLookup ((fixture.roomManager.ReserveSeats [⟨"abc", ⟨1, 1⟩⟩]).1.CancelSeats
      [⟨0, 5⟩]).1.reservedSeat 5 = none ∧
    ((fixture.roomManager.ReserveSeats [⟨"abc", ⟨1, 1⟩⟩]).1.ReserveSeats
      [⟨"abc", ⟨0, 5⟩⟩]).2 = some ⟨⟨"abc", ⟨0, 5⟩⟩, .SeatErrorCodeOutOfBound, 0⟩ :=
  ⟨Reachable.reserve _ _ Reachable.init, by decide, by decide, by decide, by decide,
    by decide, by decide, by decide⟩

/-! ## Output order of `ListAvailableSeats` -/

theorem indexToCoordinate_mono (m : DefaultRoomManager) (hC : 0 < m.cfg.NumCols) (i j : Int)
    (hi : 0 ≤ i) (hij : i ≤ j) :
    (m.indexToCoordinate i).row < (m.indexToCoordinate j).row ∨
      ((m.indexToCoordinate i).row = (m.indexToCoordinate j).row ∧
        (m.indexToCoordinate i).col ≤ (m.indexToCoordinate j).col) := by
  rw [indexToCoordinate_of_nonneg m i hi hC, indexToCoordinate_of_nonneg m j (by omega) hC]
  have hq : i / m.cfg.NumCols ≤ j / m.cfg.NumCols := Int.ediv_le_ediv hC hij
  rcases lt_or_eq_of_le hq with hlt | heq
  · exact Or.inl hlt
  · refine Or.inr ⟨heq, ?_⟩
    have e1 := Int.emod_add_ediv i m.cfg.NumCols
    have e2 := Int.emod_add_ediv j m.cfg.NumCols
    simp only at heq ⊢
    rw [heq] at e1
    omega

theorem pairwise_cells (m : DefaultRoomManager) (hC : 0 < m.cfg.NumCols)
    (count : Int → Nat) (n : Nat) :
    (((List.range n).map Int.ofNat).flatMap (fun i =>
      if (mapLookup m.reservedSeat i).isSome then []
      else List.replicate (count i) (m.indexToCoordinate i))).Pairwise
      (fun p q => p.row < q.row ∨ (p.row = q.row ∧ p.col ≤ q.col)) := by
  rw [List.pairwise_flatMap]
  constructor
  · intro i _
    split_ifs
    · exact List.Pairwise.nil
    · rw [List.pairwise_replicate]
      exact Or.inr (Or.inr ⟨rfl, Int.le_refl _⟩)
  · rw [List.pairwise_map]
    refine (List.pairwise_lt_range n).imp ?_
    intro a b hab x hx y hy
    have hxa : x = m.indexToCoordinate (Int.ofNat a) := by
      split_ifs at hx
      · simp at hx
      · exact (List.mem_replicate.1 hx).2
    have hyb : y = m.indexToCoordinate (Int.ofNat b) := by
      split_ifs at hy
      · simp at hy
      · exact (List.mem_replicate.1 hy).2
    rw [hxa, hyb]
    exact indexToCoordinate_mono m hC _ _ (Int.ofNat_nonneg a)
      (Int.ofNat_le.2 (Nat.le_of_lt hab))

/-- C11. Output order of `ListAvailableSeats`, for a room with `NumCols > 0`: for every key `g`
of a successful result, the sequence returned for `g` is in ascending row-major order: of any
two positions `p` before `q` of the sequence, the row of `p` is smaller, or the rows are equal
and the column of `p` is not larger. -/
theorem ListAvailableSeats_row_major (m : DefaultRoomManager) (hC : 0 < m.cfg.NumCols)
    (groupID : String) (res : List (String × List Coordinate))
    (h : m.ListAvailableSeats groupID = .ok res)
    (g : String) (l : List Coordinate) (hl : mapLookup res g = some l) :
    l.Pairwise (fun p q => p.row < q.row ∨ (p.row = q.row ∧ p.col ≤ q.col)) := by
  have hlk := ListAvailableSeats_ok_lookup m groupID res h g
  rw [hl] at hlk
  by_cases hg : g ∈ (if groupID = "" then m.groupManager.ListGroupIDs else [groupID])
  · rw [if_pos hg, Option.some.injEq] at hlk
    rw [hlk]
    exact pairwise_cells m hC _ _
  · rw [if_neg hg] at hlk
    exact absurd hlk (by simp)

/-- Witness for C11, the scenario of `TestRoomController_ReserveSeats`: with `abc` at `[0,1]` in
the 4x4 room, the eight cells listed for `xyz` are in ascending row-major order. -/
theorem ListAvailableSeats_row_major_witness :
    ([⟨1, 3⟩, ⟨2, 0⟩, ⟨2, 2⟩, ⟨2, 3⟩, ⟨3, 0⟩, ⟨3, 1⟩, ⟨3, 2⟩, ⟨3, 3⟩] :
      List Coordinate).Pairwise
      (fun p q => p.row < q.row ∨ (p.row = q.row ∧ p.col ≤ q.col)) :=
  ListAvailableSeats_row_major (fixture.roomManager.ReserveSeats [⟨"abc", ⟨0, 1⟩⟩]).1
    (by decide) ""
    [("abc", [⟨0, 0⟩, ⟨0, 2⟩, ⟨0, 3⟩, ⟨1, 0⟩, ⟨1, 1⟩, ⟨1, 2⟩, ⟨1, 3⟩, ⟨2, 0⟩, ⟨2, 1⟩,
            ⟨2, 2⟩, ⟨2, 3⟩, ⟨3, 0⟩, ⟨3, 1⟩, ⟨3, 2⟩, ⟨3, 3⟩]),
         ("xyz", [⟨1, 3⟩, ⟨2, 0⟩, ⟨2, 2⟩, ⟨2, 3⟩, ⟨3, 0⟩, ⟨3, 1⟩, ⟨3, 2⟩, ⟨3, 3⟩])]
    rfl "xyz" [⟨1, 3⟩, ⟨2, 0⟩, ⟨2, 2⟩, ⟨2, 3⟩, ⟨3, 0⟩, ⟨3, 1⟩, ⟨3, 2⟩, ⟨3, 3⟩] (by decide)

/-! ## Listing an empty room -/

theorem range_map_divmod_eq_rowMajor (r c : Nat) (hc : 0 < c) :
    (List.range (r * c)).map (fun k : Nat =>
        (⟨((k / c : Nat) : Int), ((k % c : Nat) : Int)⟩ : Coordinate)) =
      (List.range r).flatMap (fun (i : Nat) =>
        (List.range c).map (fun (j : Nat) => (⟨(i : Int), (j : Int)⟩ : Coordinate))) := by
  induction r with
  | zero => simp
  | succ r ih =>
    rw [Nat.succ_mul, List.range_add, List.map_append, ih, List.range_succ,
      List.flatMap_append, List.flatMap_singleton, List.map_map]
    congr 1
    apply List.map_congr_left
    intro j hj
    have hj : j < c := List.mem_range.1 hj
    simp only [Function.comp_apply]
    rw [Nat.add_comm (r * c) j, Nat.add_mul_div_right _ _ hc, Nat.add_mul_mod_self_right,
      Nat.div_eq_of_lt hj, Nat.mod_eq_of_lt hj]
    simp

theorem indexToCoordinate_natCast (m : DefaultRoomManager) (c : Nat)
    (hC : m.cfg.NumCols = (c : Int)) (k : Nat) :
    m.indexToCoordinate (Int.ofNat k) = ⟨((k / c : Nat) : Int), ((k % c : Nat) : Int)⟩ := by
  unfold DefaultRoomManager.indexToCoordinate
  simp only [Int.ofNat_eq_coe]
  rw [hC, Int.tdiv_eq_ediv (Int.ofNat_nonneg k) (Int.ofNat_nonneg c),
    Int.tmod_eq_emod (Int.ofNat_nonneg k) (Int.ofNat_nonneg c)]
  rfl

theorem empty_room_cells (m : DefaultRoomManager) (hR : 0 < m.cfg.NumRows)
    (hC : 0 < m.cfg.NumCols)
    (hN : m.cfg.NumRows * m.cfg.NumCols < 9223372036854775808) (cnt : Nat) :
    ((List.range (wrap64 (m.cfg.NumRows * m.cfg.NumCols)).toNat).map Int.ofNat).flatMap
        (fun i => List.replicate cnt (m.indexToCoordinate i)) =
      ((List.range m.cfg.NumRows.toNat).flatMap (fun (i : Nat) =>
        (List.range m.cfg.NumCols.toNat).map (fun (j : Nat) =>
          (⟨(i : Int), (j : Int)⟩ : Coordinate)))).flatMap
        (fun c => List.replicate cnt c) := by
  have hpos : 0 < m.cfg.NumRows * m.cfg.NumCols := Int.mul_pos hR hC
  rw [wrap64_eq_self _ (by omega) hN]
  obtain ⟨r, hr⟩ := Int.eq_ofNat_of_zero_le (Int.le_of_lt hR)
  obtain ⟨c, hc⟩ := Int.eq_ofNat_of_zero_le (Int.le_of_lt hC)
  have hcpos : 0 < c := by omega
  have hprod : (m.cfg.NumRows * m.cfg.NumCols).toNat = r * c := by
    rw [hr, hc, ← Int.natCast_mul, Int.toNat_natCast]
  rw [hprod, hr, hc, Int.toNat_natCast, Int.toNat_natCast,
    ← range_map_divmod_eq_rowMajor r c hcpos, List.flatMap_map, List.flatMap_map]
  congr 1
  funext k
  rw [indexToCoordinate_natCast m c hc k]

/-- C12, the claim refuted at an explicit input. In the empty 2x2 room whose registry lists
`abc` twice, `ListAvailableSeats` without filter returns for `abc` every cell twice, not the
four cells `[0,0]`, `[0,1]`, `[1,0]`, `[1,1]` each once. -/
theorem ListAvailableSeats_empty_room_duplicate_group :
    (NewRoomManager ⟨2, 2, 3⟩ (NewGroupManager ["abc", "abc"])).ListAvailableSeats "" =
      .ok [("abc", [⟨0, 0⟩, ⟨0, 0⟩, ⟨0, 1⟩, ⟨0, 1⟩, ⟨1, 0⟩, ⟨1, 0⟩, ⟨1, 1⟩, ⟨1, 1⟩])] ∧
    ([⟨0, 0⟩, ⟨0, 0⟩, ⟨0, 1⟩, ⟨0, 1⟩, ⟨1, 0⟩, ⟨1, 0⟩, ⟨1, 1⟩, ⟨1, 1⟩] : List Coordinate) ≠
      [⟨0, 0⟩, ⟨0, 1⟩, ⟨1, 0⟩, ⟨1, 1⟩] ∧
    ([⟨0, 0⟩, ⟨0, 0⟩, ⟨0, 1⟩, ⟨0, 1⟩, ⟨1, 0⟩, ⟨1, 0⟩, ⟨1, 1⟩, ⟨1, 1⟩] :
      List Coordinate).count ⟨0, 0⟩ = 2 :=
  ⟨rfl, by decide, by decide⟩

/-- C12 as amended. Listing an empty room with `NumRows > 0`, `NumCols > 0` and fewer than
`2^63` cells, whatever `MinDistance`: for every key `g` of the result, the sequence returned for
`g` runs through the coordinates `[0,0]`, `[0,1]`, ..., `[NumRows-1,NumCols-1]` in row-major
order, each as many times as `g` occurs among the target group ids (the filter alone, or the
registry listing when the filter is empty); so each exactly once when a filter is given or the
registry lists `g` once. -/
theorem ListAvailableSeats_empty_room (m : DefaultRoomManager)
    (hR : 0 < m.cfg.NumRows) (hC : 0 < m.cfg.NumCols)
    (hN : m.cfg.NumRows * m.cfg.NumCols < 9223372036854775808)
    (hempty : m.reservedSeat = [])
    (groupID : String) (res : List (String × List Coordinate))
    (h : m.ListAvailableSeats groupID = .ok res)
    (g : String) (l : List Coordinate) (hl : mapLookup res g = some l) :
    l = ((List.range m.cfg.NumRows.toNat).flatMap (fun (i : Nat) =>
          (List.range m.cfg.NumCols.toNat).map (fun (j : Nat) =>
            (⟨(i : Int), (j : Int)⟩ : Coordinate)))).flatMap
        (fun c => List.replicate
          ((if groupID = "" then m.groupManager.ListGroupIDs else [groupID]).count g) c) ∧
    ((groupID ≠ "" ∨ m.groupManager.ListGroupIDs.count g = 1) →
      l = (List.range m.cfg.NumRows.toNat).flatMap (fun (i : Nat) =>
          (List.range m.cfg.NumCols.toNat).map (fun (j : Nat) =>
            (⟨(i : Int), (j : Int)⟩ : Coordinate)))) := by
  have hlk := ListAvailableSeats_ok_lookup m groupID res h g
  rw [hl] at hlk
  by_cases hg : g ∈ (if groupID = "" then m.groupManager.ListGroupIDs else [groupID])
  · rw [if_pos hg, Option.some.injEq] at hlk
    have hall : ∀ (x : String) (c : Coordinate), m.candidateValid m.reservedSeat x c = true := by
      intro x c
      simp [DefaultRoomManager.candidateValid, hempty]
    have hfree : ∀ i : Int, (mapLookup m.reservedSeat i).isSome = false := by
      intro i
      simp [hempty, mapLookup]
    simp only [hall, hfree, List.filter_true, Bool.false_eq_true, if_false] at hlk
    have hmain := empty_room_cells m hR hC hN
      ((if groupID = "" then m.groupManager.ListGroupIDs else [groupID]).count g)
    rw [hmain] at hlk
    refine ⟨hlk, fun hone => ?_⟩
    have hcount : (if groupID = "" then m.groupManager.ListGroupIDs else [groupID]).count g =
        1 := by
      by_cases hf : groupID = ""
      · rcases hone with hne | hc1
        · exact absurd hf hne
        · rw [if_pos hf]; exact hc1
      · rw [if_neg hf] at hg ⊢
        rw [List.mem_singleton] at hg
        subst hg
        simp
    rw [hcount] at hlk
    rw [hlk]
    simp
  · rw [if_neg hg] at hlk
    exact absurd hlk (by simp)

/-- Witness for C12, the scenario of `TestRoomController_ListAvailableSeats`: the empty 4x4 room
lists for `abc` the 16 cells `[0,0]` to `[3,3]` in row-major order, each once. -/
theorem ListAvailableSeats_empty_room_witness :
    fixture.roomManager.ListAvailableSeats "abc" =
      .ok [("abc", [⟨0, 0⟩, ⟨0, 1⟩, ⟨0, 2⟩, ⟨0, 3⟩, ⟨1, 0⟩, ⟨1, 1⟩, ⟨1, 2⟩, ⟨1, 3⟩,
        ⟨2, 0⟩, ⟨2, 1⟩, ⟨2, 2⟩, ⟨2, 3⟩, ⟨3, 0⟩, ⟨3, 1⟩, ⟨3, 2⟩, ⟨3, 3⟩])] ∧
    ([⟨0, 0⟩, ⟨0, 1⟩, ⟨0, 2⟩, ⟨0, 3⟩, ⟨1, 0⟩, ⟨1, 1⟩, ⟨1, 2⟩, ⟨1, 3⟩,
        ⟨2, 0⟩, ⟨2, 1⟩, ⟨2, 2⟩, ⟨2, 3⟩, ⟨3, 0⟩, ⟨3, 1⟩, ⟨3, 2⟩, ⟨3, 3⟩] : List Coordinate) =
      (List.range fixture.roomManager.cfg.NumRows.toNat).flatMap (fun (i : Nat) =>
        (List.range fixture.roomManager.cfg.NumCols.toNat).map (fun (j : Nat) =>
          (⟨(i : Int), (j : Int)⟩ : Coordinate))) :=
  ⟨rfl,
    (ListAvailableSeats_empty_room fixture.roomManager (by decide) (by decide) (by decide)
      rfl "abc"
      [("abc", [⟨0, 0⟩, ⟨0, 1⟩, ⟨0, 2⟩, ⟨0, 3⟩, ⟨1, 0⟩, ⟨1, 1⟩, ⟨1, 2⟩, ⟨1, 3⟩,
        ⟨2, 0⟩, ⟨2, 1⟩, ⟨2, 2⟩, ⟨2, 3⟩, ⟨3, 0⟩, ⟨3, 1⟩, ⟨3, 2⟩, ⟨3, 3⟩])]
      rfl "abc" _ (by decide)).2 (Or.inl (by decide))⟩

/-! ## Reachable states -/

theorem mem_of_mapLookup_eq_some {κ ν : Type} [DecidableEq κ] (m : List (κ × ν)) (k : κ)
    (v : ν) (h : mapLookup m k = some v) : (k, v) ∈ m := by
  induction m with
  | nil => simp [mapLookup] at h
  | cons hd tl ih =>
    obtain ⟨k0, v0⟩ := hd
    by_cases h0 : k0 = k
    · simp only [mapLookup, h0, if_true, Option.some.injEq] at h
      subst h0 h
      exact List.mem_cons_self _ _
    · simp only [mapLookup, h0, if_false] at h
      exact List.mem_cons_of_mem _ (ih h)

theorem ReserveSeats_state_cases (m : DefaultRoomManager) (seats : List Seat) :
    (m.ReserveSeats seats).1 = m ∨
      ((m.ReserveSeats seats).2 = none ∧
        (m.ReserveSeats seats).1 =
          { m with reservedSeat := m.reservedSeat ++
            seats.map (fun s => (s.Coordinate.AsIndex m.cfg.NumCols, s.GroupID)) }) := by
  cases h : (m.ReserveSeats seats).2 with
  | none => exact Or.inr ⟨rfl, ReserveSeats_ok_reservedSeat m seats h⟩
  | some e =>
    left
    unfold DefaultRoomManager.ReserveSeats at h ⊢
    cases hv : m.validateSeats seats 0 [] with
    | none => simp [hv] at h
    | some e0 => simp

theorem CancelSeats_state_cases (m : DefaultRoomManager) (coordinates : List Coordinate) :
    (m.CancelSeats coordinates).1 = m ∨
      ((m.CancelSeats coordinates).2 = none ∧
        (m.CancelSeats coordinates).1 =
          { m with reservedSeat :=
            m.reservedSeat.filter (fun e =>
              decide (e.1 ∉ coordinates.map (fun c => c.AsIndex m.cfg.NumCols))) }) := by
  cases h : (m.CancelSeats coordinates).2 with
  | none => exact Or.inr ⟨rfl, CancelSeats_ok_reservedSeat m coordinates h⟩
  | some e =>
    left
    unfold DefaultRoomManager.CancelSeats at h ⊢
    cases hv : m.validateCancel coordinates 0 with
    | none => simp [hv] at h
    | some e0 => simp

theorem Reachable_invariant (cfg : config.Room) (gm : DefaultGroupManager)
    (m : DefaultRoomManager) (h : Reachable cfg gm m) :
    m.cfg = cfg ∧ m.groupManager = gm ∧
      (cfg.NumRows * cfg.NumCols < 9223372036854775808 →
        ∀ x ∈ m.reservedSeat,
          0 ≤ x.1 ∧ x.1 < cfg.NumRows * cfg.NumCols ∧ x.2 ∈ gm.groups) := by
  induction h with
  | init => exact ⟨rfl, rfl, fun _ x hx => by simp [NewRoomManager] at hx⟩
  | reserve m seats _ ih =>
    obtain ⟨ih1, ih2, ih3⟩ := ih
    rcases ReserveSeats_state_cases m seats with hsame | ⟨hok, hst⟩
    · rw [hsame]; exact ⟨ih1, ih2, ih3⟩
    · rw [hst]
      refine ⟨ih1, ih2, fun hN x hx => ?_⟩
      rcases List.mem_append.1 hx with hold | hnew
      · exact ih3 hN x hold
      · obtain ⟨s, hs, rfl⟩ := List.mem_map.1 hnew
        obtain ⟨hchk, _⟩ := (validateSeats_eq_none_iff m seats 0 []).1
          (validateSeats_of_ReserveSeats_ok m seats hok)
        obtain ⟨hgrp, hin, _, _, _⟩ := hchk s hs
        rw [ih1] at hin
        obtain ⟨e1, e2, e3⟩ := AsIndex_of_inGrid cfg.NumRows cfg.NumCols s.Coordinate hN hin
        rw [ih2] at hgrp
        simp only [ih1]
        rw [e1]
        exact ⟨e2, e3, hgrp⟩
  | cancel m coordinates _ ih =>
    obtain ⟨ih1, ih2, ih3⟩ := ih
    rcases CancelSeats_state_cases m coordinates with hsame | ⟨_, hst⟩
    · rw [hsame]; exact ⟨ih1, ih2, ih3⟩
    · rw [hst]
      exact ⟨ih1, ih2, fun hN x hx => ih3 hN x (List.mem_of_mem_filter hx)⟩

/-- C14. Well-formedness invariant, for a room with fewer than `2^63` cells: in every state
reachable from the empty store by `ReserveSeats` and `CancelSeats` calls, configuration and
registry are the initial ones, every occupied index lies in `[0, NumRows*NumCols)` and every
owning group id is a member of the group registry. -/
theorem Reachable_wellFormed (cfg : config.Room) (gm : DefaultGroupManager)
    (m : DefaultRoomManager) (h : Reachable cfg gm m)
    (hN : cfg.NumRows * cfg.NumCols < 9223372036854775808) :
    m.cfg = cfg ∧ m.groupManager = gm ∧
    (∀ k g, mapLookup m.reservedSeat k = some g →
      0 ≤ k ∧ k < cfg.NumRows * cfg.NumCols ∧ g ∈ gm.groups) ∧
    (∀ x ∈ m.reservedSeat,
      0 ≤ x.1 ∧ x.1 < cfg.NumRows * cfg.NumCols ∧ x.2 ∈ gm.groups) := by
  obtain ⟨h1, h2, h3⟩ := Reachable_invariant cfg gm m h
  exact ⟨h1, h2, fun k g hk => h3 hN (k, g) (mem_of_mapLookup_eq_some _ k g hk), h3 hN⟩

/-- Witness for C14: after reserving `abc` at `[0,1]` in the empty 4x4 test room, index 1 is
occupied by `abc`; it lies in `[0, 16)` and `abc` is registered. -/
theorem Reachable_wellFormed_witness :
    (0 : Int) ≤ 1 ∧ (1 : Int) < fixture.cfg.NumRows * fixture.cfg.NumCols ∧
      "abc" ∈ fixture.groupManager.groups :=
  (Reachable_wellFormed fixture.cfg fixture.groupManager
    (fixture.roomManager.ReserveSeats [⟨"abc", ⟨0, 1⟩⟩]).1
    (Reachable.reserve _ _ Reachable.init) (by decide)).2.2.1 1 "abc" (by decide)

end manager

namespace mathutil

theorem AbsDiff_eq_abs (x y : Int) (h1 : -9223372036854775808 < x - y)
    (h2 : x - y < 9223372036854775808) : AbsDiff x y = |x - y| := by
  unfold AbsDiff
  split_ifs with h
  · rw [wrap64_eq_self _ (by omega) (by omega), abs_of_neg (by omega)]
    omega
  · rw [wrap64_eq_self _ (by omega) (by omega), abs_of_nonneg (by omega)]

end mathutil

namespace manager

/-! ## `isValidDistance` against the Manhattan distance -/

theorem isValidDistance_iff_abs (m : DefaultRoomManager) (a b : Seat)
    (hr1 : -9223372036854775808 < a.Coordinate.row - b.Coordinate.row)
    (hr2 : a.Coordinate.row - b.Coordinate.row < 9223372036854775808)
    (hc1 : -9223372036854775808 < a.Coordinate.col - b.Coordinate.col)
    (hc2 : a.Coordinate.col - b.Coordinate.col < 9223372036854775808)
    (hsum : |a.Coordinate.row - b.Coordinate.row| + |a.Coordinate.col - b.Coordinate.col| <
      9223372036854775808) :
    m.isValidDistance a b = true ↔
      (if a.GroupID = b.GroupID then 1 else m.cfg.MinDistance) ≤
        |a.Coordinate.row - b.Coordinate.row| + |a.Coordinate.col - b.Coordinate.col| := by
  unfold DefaultRoomManager.isValidDistance
  simp only [Seat.Row, Seat.Col, decide_eq_true_eq, ge_iff_le]
  rw [mathutil.AbsDiff_eq_abs _ _ hr1 hr2, mathutil.AbsDiff_eq_abs _ _ hc1 hc2]
  have hnn : 0 ≤ |a.Coordinate.row - b.Coordinate.row| +
      |a.Coordinate.col - b.Coordinate.col| :=
    Int.add_nonneg (abs_nonneg _) (abs_nonneg _)
  rw [wrap64_eq_self _ (by omega) hsum]
  by_cases hg : a.GroupID = b.GroupID
  · simp [hg]
  · simp [hg]

/-- C17. `isValidDistance` equals its reference definition: for seats whose rows and columns
lie in `[0, 2^31)` and every `MinDistance`, `isValidDistance a b` is true exactly when
`|a.row - b.row| + |a.col - b.col|` is at least the required distance, 1 for equal group ids and
`MinDistance` otherwise; and `AbsDiff x y` is `|x - y|` for all `x`, `y` of that range. -/
theorem isValidDistance_eq_reference (m : DefaultRoomManager) (a b : Seat)
    (ha : 0 ≤ a.Coordinate.row ∧ a.Coordinate.row < 2147483648 ∧
      0 ≤ a.Coordinate.col ∧ a.Coordinate.col < 2147483648)
    (hb : 0 ≤ b.Coordinate.row ∧ b.Coordinate.row < 2147483648 ∧
      0 ≤ b.Coordinate.col ∧ b.Coordinate.col < 2147483648) :
    (m.isValidDistance a b = true ↔
      (if a.GroupID = b.GroupID then 1 else m.cfg.MinDistance) ≤
        |a.Coordinate.row - b.Coordinate.row| + |a.Coordinate.col - b.Coordinate.col|) ∧
    mathutil.AbsDiff a.Row b.Row = |a.Coordinate.row - b.Coordinate.row| ∧
    mathutil.AbsDiff a.Col b.Col = |a.Coordinate.col - b.Coordinate.col| ∧
    (∀ x y : Int, 0 ≤ x → x < 2147483648 → 0 ≤ y → y < 2147483648 →
      mathutil.AbsDiff x y = |x - y|) := by
  obtain ⟨a1, a2, a3, a4⟩ := ha
  obtain ⟨b1, b2, b3, b4⟩ := hb
  have hrow : |a.Coordinate.row - b.Coordinate.row| < 2147483648 := by
    rw [abs_lt]; constructor <;> omega
  have hcol : |a.Coordinate.col - b.Coordinate.col| < 2147483648 := by
    rw [abs_lt]; constructor <;> omega
  refine ⟨isValidDistance_iff_abs m a b (by omega) (by omega) (by omega) (by omega)
    (by omega), mathutil.AbsDiff_eq_abs _ _ (by simp only [Seat.Row]; omega)
      (by simp only [Seat.Row]; omega),
    mathutil.AbsDiff_eq_abs _ _ (by simp only [Seat.Col]; omega)
      (by simp only [Seat.Col]; omega), ?_⟩
  intro x y hx1 hx2 hy1 hy2
  exact mathutil.AbsDiff_eq_abs x y (by omega) (by omega)

/-- Witness for C17: `abc` at `[0,1]` and `xyz` at `[0,3]` in the test room (minimum distance 3)
are at Manhattan distance 2, below the required 3, and `isValidDistance` is false. -/
theorem isValidDistance_eq_reference_witness :
    fixture.roomManager.isValidDistance ⟨"abc", ⟨0, 1⟩⟩ ⟨"xyz", ⟨0, 3⟩⟩ = false ∧
      ¬ ((if "abc" = "xyz" then 1 else fixture.roomManager.cfg.MinDistance) ≤
        |(0 : Int) - 0| + |(1 : Int) - 3|) :=
  ⟨by decide, fun hle =>
    absurd ((isValidDistance_eq_reference fixture.roomManager ⟨"abc", ⟨0, 1⟩⟩
      ⟨"xyz", ⟨0, 3⟩⟩ (by decide) (by decide)).1.2 hle) (by decide)⟩

/-- C18. `isValidDistance` is symmetric in its two seats, for every configuration: the order
`(occupied, candidate)` of `ListAvailableSeats` and the order `(candidate, occupied)` of
`ReserveSeats` give the same answer. -/
theorem isValidDistance_symmetric (m : DefaultRoomManager) (a b : Seat) :
    m.isValidDistance a b = m.isValidDistance b a := by
  unfold DefaultRoomManager.isValidDistance
  rw [mathutil.AbsDiff_comm a.Row b.Row, mathutil.AbsDiff_comm a.Col b.Col]
  by_cases h : a.GroupID = b.GroupID
  · simp [h]
  · simp [h, Ne.symm h]

/-! ## Adjacent seats of one group -/

theorem isValidDistance_iff_abs_of_inGrid (m : DefaultRoomManager) (a b : Seat)
    (hN : m.cfg.NumRows * m.cfg.NumCols < 9223372036854775808)
    (ha : 0 ≤ a.Coordinate.row ∧ a.Coordinate.row < m.cfg.NumRows ∧
      0 ≤ a.Coordinate.col ∧ a.Coordinate.col < m.cfg.NumCols)
    (hb : 0 ≤ b.Coordinate.row ∧ b.Coordinate.row < m.cfg.NumRows ∧
      0 ≤ b.Coordinate.col ∧ b.Coordinate.col < m.cfg.NumCols) :
    m.isValidDistance a b = true ↔
      (if a.GroupID = b.GroupID then 1 else m.cfg.MinDistance) ≤
        |a.Coordinate.row - b.Coordinate.row| + |a.Coordinate.col - b.Coordinate.col| := by
  obtain ⟨a1, a2, a3, a4⟩ := ha
  obtain ⟨b1, b2, b3, b4⟩ := hb
  have hprod : 0 ≤ (m.cfg.NumRows - 1) * (m.cfg.NumCols - 1) :=
    Int.mul_nonneg (by omega) (by omega)
  have hexp : (m.cfg.NumRows - 1) * (m.cfg.NumCols - 1) =
      m.cfg.NumRows * m.cfg.NumCols - m.cfg.NumRows - m.cfg.NumCols + 1 := by ring
  have hrow : |a.Coordinate.row - b.Coordinate.row| ≤ m.cfg.NumRows - 1 := by
    rw [abs_le]; constructor <;> omega
  have hcol : |a.Coordinate.col - b.Coordinate.col| ≤ m.cfg.NumCols - 1 := by
    rw [abs_le]; constructor <;> omega
  exact isValidDistance_iff_abs m a b (by omega) (by omega) (by omega) (by omega) (by omega)

/-- C13. Adjacency allowance, for a room with fewer than `2^63` cells: in every reachable
state, for every registered group `g` and every in-grid coordinate `c` whose index is not
occupied, if every occupied seat of a group other than `g` is at Manhattan distance at least
`MinDistance` from `c`, then `ReserveSeats` of the single seat `(g, c)` succeeds; nothing is
asked of the seats `g` already holds, however close, nor of the value of `MinDistance`. -/
theorem ReserveSeats_adjacent_same_group (cfg : config.Room) (gm : DefaultGroupManager)
    (m : DefaultRoomManager) (hreach : Reachable cfg gm m)
    (hN : cfg.NumRows * cfg.NumCols < 9223372036854775808)
    (g : String) (hg : g ∈ gm.groups) (c : Coordinate)
    (hin : 0 ≤ c.row ∧ c.row < cfg.NumRows ∧ 0 ≤ c.col ∧ c.col < cfg.NumCols)
    (hfree : mapLookup m.reservedSeat (c.AsIndex cfg.NumCols) = none)
    (hfar : ∀ x ∈ m.reservedSeat, x.2 ≠ g →
      cfg.MinDistance ≤ |c.row - (m.indexToCoordinate x.1).row| +
        |c.col - (m.indexToCoordinate x.1).col|) :
    (m.ReserveSeats [⟨g, c⟩]).2 = none := by
  obtain ⟨hcfg, hgm, hinv⟩ := Reachable_invariant cfg gm m hreach
  subst hcfg hgm
  have hC : 0 < m.cfg.NumCols := by omega
  have hv : m.validateSeats [⟨g, c⟩] 0 [] = none := by
    rw [validateSeats_eq_none_iff]
    refine ⟨?_, by simp⟩
    intro seat hseat
    rw [List.mem_singleton] at hseat
    subst hseat
    refine ⟨hg, hin, hfree, by simp, ?_⟩
    intro x hx
    obtain ⟨k1, k2, _⟩ := hinv hN x hx
    obtain ⟨hxin, hxidx⟩ := inGrid_of_index m x.1 k1 hC k2 hN
    rw [isValidDistance_iff_abs_of_inGrid m _ _ hN hin hxin]
    by_cases hsame : g = x.2
    · simp only [hsame, if_true]
      have hne : c ≠ m.indexToCoordinate x.1 := by
        intro heq
        have hkey := (mapLookup_eq_none_iff _ _).1 hfree x hx
        rw [heq, hxidx] at hkey
        exact hkey rfl
      by_contra hlt
      have h0 : |c.row - (m.indexToCoordinate x.1).row| +
          |c.col - (m.indexToCoordinate x.1).col| ≤ 0 := by
        simp only at hlt; omega
      have hr0 := abs_nonneg (c.row - (m.indexToCoordinate x.1).row)
      have hc0 := abs_nonneg (c.col - (m.indexToCoordinate x.1).col)
      have hr : c.row - (m.indexToCoordinate x.1).row = 0 := abs_eq_zero.1 (by omega)
      have hc : c.col - (m.indexToCoordinate x.1).col = 0 := abs_eq_zero.1 (by omega)
      apply hne
      cases c
      cases hcoord : m.indexToCoordinate x.1
      simp only [hcoord] at hr hc
      simp only [Coordinate.mk.injEq]
      constructor <;> omega
    · simp only [hsame, if_false]
      exact hfar x hx (fun h => hsame h.symm)
  unfold DefaultRoomManager.ReserveSeats
  rw [hv]

/-- Witness for C13: in the 4x4 test room with minimum distance 3, `abc` at `[0,1]` and `xyz`
at `[3,3]`, reserving `abc` at `[0,2]`, adjacent to its own seat and at distance 4 from the
seat of `xyz`, succeeds. -/
theorem ReserveSeats_adjacent_same_group_witness :
    (((fixture.roomManager.ReserveSeats [⟨"abc", ⟨0, 1⟩⟩]).1.ReserveSeats
      [⟨"xyz", ⟨3, 3⟩⟩]).1.ReserveSeats [⟨"abc", ⟨0, 2⟩⟩]).2 = none :=
  ReserveSeats_adjacent_same_group fixture.cfg fixture.groupManager
    ((fixture.roomManager.ReserveSeats [⟨"abc", ⟨0, 1⟩⟩]).1.ReserveSeats
      [⟨"xyz", ⟨3, 3⟩⟩]).1
    (Reachable.reserve _ _ (Reachable.reserve _ _ Reachable.init)) (by decide) "abc"
    (by decide) ⟨0, 2⟩ (by decide) (by decide) (by decide)

/-! ## Postcondition of `CancelSeats` -/

theorem mapLookup_filter_not_mem (r : List (Int × String)) (ks : List Int) (k : Int) :
    mapLookup (r.filter (fun e => decide (e.1 ∉ ks))) k =
      if k ∈ ks then none else mapLookup r k := by
  induction r with
  | nil => simp [mapLookup]
  | cons hd tl ih =>
    obtain ⟨k0, v0⟩ := hd
    by_cases hmem : k0 ∈ ks
    · have hf : ((k0, v0) :: tl).filter (fun e => decide (e.1 ∉ ks)) =
          tl.filter (fun e => decide (e.1 ∉ ks)) := by
        simp [List.filter_cons, hmem]
      rw [hf, ih]
      by_cases hk : k ∈ ks
      · simp [hk]
      · have hne : k0 ≠ k := fun h => hk (h ▸ hmem)
        simp [hk, mapLookup, hne]
    · have hf : ((k0, v0) :: tl).filter (fun e => decide (e.1 ∉ ks)) =
          (k0, v0) :: tl.filter (fun e => decide (e.1 ∉ ks)) := by
        simp [List.filter_cons, hmem]
      rw [hf]
      by_cases h0 : k0 = k
      · subst h0
        simp [mapLookup, hmem]
      · simp only [mapLookup, h0, if_false, ih]

/-- C15. Postcondition and frame of a successful `CancelSeats`: afterwards an index is occupied
exactly when it was occupied before the call and is not the index of a coordinate of the
batch; an index that is still occupied has the owner it had; an index that was free is still
free. Configuration and group registry are untouched. -/
theorem CancelSeats_postcondition_and_frame (m : DefaultRoomManager)
    (coordinates : List Coordinate) (h : (m.CancelSeats coordinates).2 = none) :
    (∀ k, mapLookup (m.CancelSeats coordinates).1.reservedSeat k ≠ none ↔
      (mapLookup m.reservedSeat k ≠ none ∧
        ∀ c ∈ coordinates, c.AsIndex m.cfg.NumCols ≠ k)) ∧
    (∀ k g, mapLookup (m.CancelSeats coordinates).1.reservedSeat k = some g →
      mapLookup m.reservedSeat k = some g) ∧
    (∀ k, mapLookup m.reservedSeat k = none →
      mapLookup (m.CancelSeats coordinates).1.reservedSeat k = none) ∧
    (m.CancelSeats coordinates).1.cfg = m.cfg ∧
    (m.CancelSeats coordinates).1.groupManager = m.groupManager := by
  have hst := CancelSeats_ok_reservedSeat m coordinates h
  have hlk : ∀ k, mapLookup (m.CancelSeats coordinates).1.reservedSeat k =
      if k ∈ coordinates.map (fun c => c.AsIndex m.cfg.NumCols) then none
      else mapLookup m.reservedSeat k := by
    intro k
    rw [hst]
    exact mapLookup_filter_not_mem _ _ k
  refine ⟨fun k => ?_, fun k g hk => ?_, fun k hk => ?_, by rw [hst], by rw [hst]⟩
  all_goals rw [hlk] at *
  · by_cases hmem : k ∈ coordinates.map (fun c => c.AsIndex m.cfg.NumCols)
    · simp only [hmem, if_true, ne_eq, not_true_eq_false, false_iff, not_and]
      intro _ hall
      obtain ⟨c, hc, rfl⟩ := List.mem_map.1 hmem
      exact hall c hc rfl
    · simp only [hmem, if_false, ne_eq, iff_self_and]
      intro _ c hc heq
      exact hmem (List.mem_map.2 ⟨c, hc, heq⟩)
  · by_cases hmem : k ∈ coordinates.map (fun c => c.AsIndex m.cfg.NumCols)
    · simp [hmem] at hk
    · simpa [hmem] using hk
  · by_cases hmem : k ∈ coordinates.map (fun c => c.AsIndex m.cfg.NumCols)
    · simp [hmem]
    · simp [hmem, hk]

/-- Witness for C15: in the 4x4 test room with `abc` at `[0,1]` and `xyz` at `[3,3]`, cancelling
`[0,1]` succeeds; index 15, the cell `[3,3]`, is still occupied, so it was occupied before and
is not the index of `[0,1]`. -/
theorem CancelSeats_postcondition_and_frame_witness :
    (((fixture.roomManager.ReserveSeats [⟨"abc", ⟨0, 1⟩⟩]).1.ReserveSeats
      [⟨"xyz", ⟨3, 3⟩⟩]).1.CancelSeats [⟨0, 1⟩]).2 = none ∧
    mapLookup ((fixture.roomManager.ReserveSeats [⟨"abc", ⟨0, 1⟩⟩]).1.ReserveSeats
      [⟨"xyz", ⟨3, 3⟩⟩]).1.reservedSeat 15 ≠ none :=
  ⟨by decide,
    (((CancelSeats_postcondition_and_frame
      ((fixture.roomManager.ReserveSeats [⟨"abc", ⟨0, 1⟩⟩]).1.ReserveSeats
        [⟨"xyz", ⟨3, 3⟩⟩]).1 [⟨0, 1⟩] (by decide)).1 15).1 (by decide)).1⟩

theorem CancelSeats_of_validateCancel_some (m : DefaultRoomManager)
    (coordinates : List Coordinate) (e : SeatError)
    (hv : m.validateCancel coordinates 0 = some e) :
    m.CancelSeats coordinates = (m, some e) := by
  unfold DefaultRoomManager.CancelSeats
  rw [hv]

/-- C16. Cancel is not idempotent: whenever `CancelSeats` of the single coordinate `c`
succeeds, the same call made again right away fails with a `SeatError` of code NotReserved at
index 0 naming `c`, and leaves the manager, and so the reservation map, as it was. -/
theorem CancelSeats_twice_fails (m : DefaultRoomManager) (c : Coordinate)
    (h : (m.CancelSeats [c]).2 = none) :
    ((m.CancelSeats [c]).1.CancelSeats [c]).2 =
      some ⟨⟨"", c⟩, .SeatErrorCodeNotReserved, 0⟩ ∧
    ((m.CancelSeats [c]).1.CancelSeats [c]).1 = (m.CancelSeats [c]).1 ∧
    ((m.CancelSeats [c]).1.CancelSeats [c]).1.reservedSeat =
      (m.CancelSeats [c]).1.reservedSeat := by
  have hst := CancelSeats_ok_reservedSeat m [c] h
  have hnone : mapLookup (m.CancelSeats [c]).1.reservedSeat
      (c.AsIndex (m.CancelSeats [c]).1.cfg.NumCols) = none := by
    rw [hst]
    simp only [mapLookup_filter_not_mem]
    simp
  have hv : (m.CancelSeats [c]).1.validateCancel [c] 0 =
      some ⟨⟨"", c⟩, .SeatErrorCodeNotReserved, 0⟩ := by
    simp only [DefaultRoomManager.validateCancel, hnone, Option.isNone_none, if_true]
  rw [CancelSeats_of_validateCancel_some _ _ _ hv]
  exact ⟨rfl, rfl, rfl⟩

/-- Witness for C16: in the 4x4 test room with `abc` at `[0,1]`, cancelling `[0,1]` succeeds and
cancelling it again reports NotReserved at index 0. -/
theorem CancelSeats_twice_fails_witness :
    ((fixture.roomManager.ReserveSeats [⟨"abc", ⟨0, 1⟩⟩]).1.CancelSeats [⟨0, 1⟩]).2 = none ∧
    (((fixture.roomManager.ReserveSeats [⟨"abc", ⟨0, 1⟩⟩]).1.CancelSeats
      [⟨0, 1⟩]).1.CancelSeats [⟨0, 1⟩]).2 =
      some ⟨⟨"", ⟨0, 1⟩⟩, .SeatErrorCodeNotReserved, 0⟩ :=
  ⟨by decide,
    (CancelSeats_twice_fails (fixture.roomManager.ReserveSeats [⟨"abc", ⟨0, 1⟩⟩]).1 ⟨0, 1⟩
      (by decide)).1⟩

/-! ## Coordinates and indexes -/

/-- C19. The coordinate/index mapping is a bijection on the grid, for a room with
`NumCols > 0` and fewer than `2^63` cells: every in-grid coordinate `c` satisfies
`indexToCoordinate (AsIndex c) = c` with `0 <= AsIndex c < NumRows*NumCols`; every index `i` of
`[0, NumRows*NumCols)` satisfies `AsIndex (indexToCoordinate i) = i` with `indexToCoordinate i`
inside the grid; hence two in-grid coordinates with the same index are equal. -/
theorem index_coordinate_bijection (m : DefaultRoomManager) (hC : 0 < m.cfg.NumCols)
    (hN : m.cfg.NumRows * m.cfg.NumCols < 9223372036854775808) :
    (∀ c : Coordinate,
      (0 ≤ c.row ∧ c.row < m.cfg.NumRows ∧ 0 ≤ c.col ∧ c.col < m.cfg.NumCols) →
      m.indexToCoordinate (c.AsIndex m.cfg.NumCols) = c ∧
        0 ≤ c.AsIndex m.cfg.NumCols ∧
        c.AsIndex m.cfg.NumCols < m.cfg.NumRows * m.cfg.NumCols) ∧
    (∀ i : Int, 0 ≤ i → i < m.cfg.NumRows * m.cfg.NumCols →
      (m.indexToCoordinate i).AsIndex m.cfg.NumCols = i ∧
        (0 ≤ (m.indexToCoordinate i).row ∧ (m.indexToCoordinate i).row < m.cfg.NumRows ∧
          0 ≤ (m.indexToCoordinate i).col ∧
          (m.indexToCoordinate i).col < m.cfg.NumCols)) ∧
    (∀ c d : Coordinate,
      (0 ≤ c.row ∧ c.row < m.cfg.NumRows ∧ 0 ≤ c.col ∧ c.col < m.cfg.NumCols) →
      (0 ≤ d.row ∧ d.row < m.cfg.NumRows ∧ 0 ≤ d.col ∧ d.col < m.cfg.NumCols) →
      c.AsIndex m.cfg.NumCols = d.AsIndex m.cfg.NumCols → c = d) := by
  refine ⟨fun c hc => ?_, fun i hi hlt => ?_, fun c d hc hd heq => ?_⟩
  · obtain ⟨e1, e2, e3⟩ := AsIndex_of_inGrid m.cfg.NumRows m.cfg.NumCols c hN hc
    exact ⟨indexToCoordinate_AsIndex m c hN hc, by rw [e1]; exact e2, by rw [e1]; exact e3⟩
  · obtain ⟨q1, q2⟩ := inGrid_of_index m i hi hC hlt hN
    exact ⟨q2, q1⟩
  · rw [← indexToCoordinate_AsIndex m c hN hc, heq, indexToCoordinate_AsIndex m d hN hd]

/-- Witness for C19 on the 4x4 test room: the coordinate `[2,3]` has index 11 and index 11 is
mapped back to `[2,3]`. -/
theorem index_coordinate_bijection_witness :
    fixture.roomManager.indexToCoordinate
        ((⟨2, 3⟩ : Coordinate).AsIndex fixture.roomManager.cfg.NumCols) = ⟨2, 3⟩ ∧
      (⟨2, 3⟩ : Coordinate).AsIndex fixture.roomManager.cfg.NumCols = 11 :=
  ⟨((index_coordinate_bijection fixture.roomManager (by decide) (by decide)).1 ⟨2, 3⟩
      (by decide)).1, by decide⟩

/-- C20. The index computation does not overflow: in a grid with `NumRows > 0`, `NumCols > 0`
and at most `2^31` cells, `AsIndex`, computed with 64-bit wrap-around, equals the exact integer
`row*NumCols + col` for every in-grid coordinate, and the 64-bit cell count
`int64(NumRows)*int64(NumCols)` of `ListAvailableSeats` equals the exact product. -/
theorem AsIndex_no_overflow (numRows numCols : Int) (hR : 0 < numRows) (hC : 0 < numCols)
    (hcells : numRows * numCols ≤ 2147483648) :
    (∀ c : Coordinate,
      (0 ≤ c.row ∧ c.row < numRows ∧ 0 ≤ c.col ∧ c.col < numCols) →
      c.AsIndex numCols = c.row * numCols + c.col) ∧
    wrap64 (numRows * numCols) = numRows * numCols := by
  have hpos : 0 < numRows * numCols := Int.mul_pos hR hC
  refine ⟨fun c hc => ?_, wrap64_eq_self _ (by omega) (by omega)⟩
  exact (AsIndex_of_inGrid numRows numCols c (by omega) hc).1

/-- Witness for C20 on the 4x4 test room: `AsIndex` of `[3,3]` is `3*4 + 3` and the 64-bit cell
count is 16. -/
theorem AsIndex_no_overflow_witness :
    (⟨3, 3⟩ : Coordinate).AsIndex 4 = 3 * 4 + 3 ∧ wrap64 (4 * 4) = 4 * 4 :=
  ⟨(AsIndex_no_overflow 4 4 (by decide) (by decide) (by decide)).1 ⟨3, 3⟩ (by decide),
    (AsIndex_no_overflow 4 4 (by decide) (by decide) (by decide)).2⟩

/-! ## Availability against the reservation map -/

theorem ListAvailableSeats_mem_cells (m : DefaultRoomManager) (groupID : String)
    (res : List (String × List Coordinate)) (h : m.ListAvailableSeats groupID = .ok res)
    (g : String) (l : List Coordinate) (hl : mapLookup res g = some l) (c : Coordinate) :
    c ∈ l ↔ ∃ n : Nat, n < (wrap64 (m.cfg.NumRows * m.cfg.NumCols)).toNat ∧
      mapLookup m.reservedSeat (n : Int) = none ∧
      (∀ x ∈ m.reservedSeat,
        m.isValidDistance ⟨g, c⟩ ⟨x.2, m.indexToCoordinate x.1⟩ = true) ∧
      c = m.indexToCoordinate (n : Int) := by
  have hlk := ListAvailableSeats_ok_lookup m groupID res h g
  rw [hl] at hlk
  by_cases hg : g ∈ (if groupID = "" then m.groupManager.ListGroupIDs else [groupID])
  · rw [if_pos hg, Option.some.injEq] at hlk
    rw [hlk]
    simp only [List.mem_flatMap, List.mem_map, List.mem_range]
    constructor
    · rintro ⟨i, ⟨n, hn, rfl⟩, hc⟩
      simp only [Int.ofNat_eq_coe] at hc
      cases hfree : mapLookup m.reservedSeat (n : Int) with
      | some v => simp [hfree] at hc
      | none =>
        simp only [hfree, Option.isSome_none, Bool.false_eq_true, if_false,
          List.mem_replicate] at hc
        obtain ⟨hcount, rfl⟩ := hc
        have hmem := List.count_pos_iff.1 (Nat.pos_of_ne_zero hcount)
        exact ⟨n, hn, hfree, (candidateValid_iff m _ g _).1 (List.mem_filter.1 hmem).2, rfl⟩
    · rintro ⟨n, hn, hfree, hvalid, rfl⟩
      refine ⟨(n : Int), ⟨n, hn, rfl⟩, ?_⟩
      rw [hfree]
      simp only [Option.isSome_none, Bool.false_eq_true, if_false, List.mem_replicate,
        and_true]
      have hmem : g ∈ (if groupID = "" then m.groupManager.ListGroupIDs
          else [groupID]).filter (fun x =>
            m.candidateValid m.reservedSeat x (m.indexToCoordinate (n : Int))) :=
        List.mem_filter.2 ⟨hg, (candidateValid_iff m _ g _).2 hvalid⟩
      exact Nat.ne_of_gt (List.count_pos_iff.2 hmem)
  · rw [if_neg hg] at hlk
    exact absurd hlk (by simp)

theorem ListAvailableSeats_antitone_aux (m : DefaultRoomManager) (r1 r2 : List (Int × String))
    (hsub : ∀ x ∈ r1, x ∈ r2) (groupID : String)
    (res1 res2 : List (String × List Coordinate))
    (h1 : ({ m with reservedSeat := r1 } : DefaultRoomManager).ListAvailableSeats groupID =
      .ok res1)
    (h2 : ({ m with reservedSeat := r2 } : DefaultRoomManager).ListAvailableSeats groupID =
      .ok res2)
    (g : String) (l1 l2 : List Coordinate) (hl1 : mapLookup res1 g = some l1)
    (hl2 : mapLookup res2 g = some l2) (c : Coordinate) (hc : c ∈ l2) : c ∈ l1 := by
  rw [ListAvailableSeats_mem_cells _ groupID res2 h2 g l2 hl2] at hc
  rw [ListAvailableSeats_mem_cells _ groupID res1 h1 g l1 hl1]
  obtain ⟨n, hn, hfree, hvalid, hcoord⟩ := hc
  refine ⟨n, hn, ?_, fun x hx => hvalid x (hsub x hx), hcoord⟩
  rw [mapLookup_eq_none_iff] at hfree ⊢
  exact fun e he => hfree e (hsub e he)

/-- C27. Availability is antitone in the reservation map. For two reservation maps of one
room such that every entry of the first is an entry of the second, and every key `g` of the
results, every coordinate `ListAvailableSeats` returns for `g` on the second map is returned
for `g` on the first. Hence a successful `ReserveSeats` adds no coordinate to the sequence of
any group, and a successful `CancelSeats` removes none. -/
theorem ListAvailableSeats_antitone (m : DefaultRoomManager) :
    (∀ larger : List (Int × String), (∀ x ∈ m.reservedSeat, x ∈ larger) →
      ∀ (groupID : String) (res resLarger : List (String × List Coordinate)) (g : String)
        (l lLarger : List Coordinate),
        m.ListAvailableSeats groupID = .ok res →
        ({ m with reservedSeat := larger } : DefaultRoomManager).ListAvailableSeats groupID =
          .ok resLarger →
        mapLookup res g = some l → mapLookup resLarger g = some lLarger →
        ∀ c ∈ lLarger, c ∈ l) ∧
    (∀ seats : List Seat, (m.ReserveSeats seats).2 = none →
      ∀ (groupID : String) (res resAfter : List (String × List Coordinate)) (g : String)
        (l lAfter : List Coordinate),
        m.ListAvailableSeats groupID = .ok res →
        (m.ReserveSeats seats).1.ListAvailableSeats groupID = .ok resAfter →
        mapLookup res g = some l → mapLookup resAfter g = some lAfter →
        ∀ c ∈ lAfter, c ∈ l) ∧
    (∀ coordinates : List Coordinate, (m.CancelSeats coordinates).2 = none →
      ∀ (groupID : String) (res resAfter : List (String × List Coordinate)) (g : String)
        (l lAfter : List Coordinate),
        m.ListAvailableSeats groupID = .ok res →
        (m.CancelSeats coordinates).1.ListAvailableSeats groupID = .ok resAfter →
        mapLookup res g = some l → mapLookup resAfter g = some lAfter →
        ∀ c ∈ l, c ∈ lAfter) := by
  refine ⟨?_, ?_, ?_⟩
  · intro larger hsub groupID res resLarger g l lLarger h1 h2 hl1 hl2 c hc
    exact ListAvailableSeats_antitone_aux m m.reservedSeat larger hsub groupID res resLarger
      h1 h2 g l lLarger hl1 hl2 c hc
  · intro seats hok groupID res resAfter g l lAfter h1 h2 hl1 hl2 c hc
    rw [ReserveSeats_ok_reservedSeat m seats hok] at h2
    exact ListAvailableSeats_antitone_aux m m.reservedSeat _
      (fun x hx => List.mem_append_left _ hx) groupID res resAfter h1 h2 g l lAfter hl1 hl2
      c hc
  · intro coordinates hok groupID res resAfter g l lAfter h1 h2 hl1 hl2 c hc
    rw [CancelSeats_ok_reservedSeat m coordinates hok] at h2
    exact ListAvailableSeats_antitone_aux m _ m.reservedSeat
      (fun x hx => List.mem_of_mem_filter hx) groupID resAfter res h2 h1 g lAfter l hl2 hl1
      c hc

/-- Witness for C27 on the 4x4 test room: `[1,3]` is listed for `xyz` after `abc` took `[0,1]`,
so it was listed for `xyz` in the empty room. -/
theorem ListAvailableSeats_antitone_witness :
    (⟨1, 3⟩ : Coordinate) ∈
      ([⟨0, 0⟩, ⟨0, 1⟩, ⟨0, 2⟩, ⟨0, 3⟩, ⟨1, 0⟩, ⟨1, 1⟩, ⟨1, 2⟩, ⟨1, 3⟩,
        ⟨2, 0⟩, ⟨2, 1⟩, ⟨2, 2⟩, ⟨2, 3⟩, ⟨3, 0⟩, ⟨3, 1⟩, ⟨3, 2⟩, ⟨3, 3⟩] : List Coordinate) :=
  (ListAvailableSeats_antitone fixture.roomManager).2.1 [⟨"abc", ⟨0, 1⟩⟩] (by decide) "xyz"
    [("xyz", [⟨0, 0⟩, ⟨0, 1⟩, ⟨0, 2⟩, ⟨0, 3⟩, ⟨1, 0⟩, ⟨1, 1⟩, ⟨1, 2⟩, ⟨1, 3⟩,
        ⟨2, 0⟩, ⟨2, 1⟩, ⟨2, 2⟩, ⟨2, 3⟩, ⟨3, 0⟩, ⟨3, 1⟩, ⟨3, 2⟩, ⟨3, 3⟩])]
    [("xyz", [⟨1, 3⟩, ⟨2, 0⟩, ⟨2, 2⟩, ⟨2, 3⟩, ⟨3, 0⟩, ⟨3, 1⟩, ⟨3, 2⟩, ⟨3, 3⟩])]
    "xyz" _ [⟨1, 3⟩, ⟨2, 0⟩, ⟨2, 2⟩, ⟨2, 3⟩, ⟨3, 0⟩, ⟨3, 1⟩, ⟨3, 2⟩, ⟨3, 3⟩]
    rfl rfl (by decide) (by decide) ⟨1, 3⟩ (by decide)

/-! ## `ListAvailableSeats` against `ReserveSeats` -/

theorem ReserveSeats_single_ok_iff (m : DefaultRoomManager) (g : String) (c : Coordinate) :
    (m.ReserveSeats [⟨g, c⟩]).2 = none ↔
      g ∈ m.groupManager.groups ∧
      (0 ≤ c.row ∧ c.row < m.cfg.NumRows ∧ 0 ≤ c.col ∧ c.col < m.cfg.NumCols) ∧
      mapLookup m.reservedSeat (c.AsIndex m.cfg.NumCols) = none ∧
      (∀ x ∈ m.reservedSeat,
        m.isValidDistance ⟨g, c⟩ ⟨x.2, m.indexToCoordinate x.1⟩ = true) := by
  have hv := validateSeats_eq_none_iff m [⟨g, c⟩] 0 []
  have hiff : (m.ReserveSeats [⟨g, c⟩]).2 = none ↔ m.validateSeats [⟨g, c⟩] 0 [] = none := by
    unfold DefaultRoomManager.ReserveSeats
    cases m.validateSeats [⟨g, c⟩] 0 [] <;> simp
  rw [hiff, hv]
  simp

theorem ListAvailableSeats_registered_ok (m : DefaultRoomManager) (g : String)
    (hg : g ∈ m.groupManager.groups) :
    ∃ res l, m.ListAvailableSeats g = .ok res ∧ mapLookup res g = some l := by
  have hhas := (HasGroupID_iff m.groupManager g).2 hg
  have hok : ∃ res, m.ListAvailableSeats g = .ok res := by
    unfold DefaultRoomManager.ListAvailableSeats
    simp [hhas]
  obtain ⟨res, hres⟩ := hok
  have hlk := ListAvailableSeats_ok_lookup m g res hres g
  have hmem : g ∈ (if g = "" then m.groupManager.ListGroupIDs else [g]) := by
    by_cases h0 : g = ""
    · rw [if_pos h0]; exact hg
    · rw [if_neg h0]; exact List.mem_singleton.2 rfl
  rw [if_pos hmem] at hlk
  exact ⟨res, _, hres, hlk⟩

/-- C22. List and Reserve agree, for a room with `NumCols > 0` whose 64-bit cell count does not
wrap (`-2^63 <= NumRows*NumCols < 2^63`): for every reservation map and every registered group
`g`, `ListAvailableSeats g` succeeds with a sequence for `g`, and a coordinate `c` occurs in
that sequence exactly when `ReserveSeats` of the single seat `(g, c)` succeeds on the same
state. -/
theorem ListAvailableSeats_iff_ReserveSeats (m : DefaultRoomManager)
    (hC : 0 < m.cfg.NumCols)
    (hlo : -9223372036854775808 ≤ m.cfg.NumRows * m.cfg.NumCols)
    (hN : m.cfg.NumRows * m.cfg.NumCols < 9223372036854775808)
    (g : String) (hg : g ∈ m.groupManager.groups) :
    ∃ res l, m.ListAvailableSeats g = .ok res ∧ mapLookup res g = some l ∧
      ∀ c : Coordinate, c ∈ l ↔ (m.ReserveSeats [⟨g, c⟩]).2 = none := by
  obtain ⟨res, l, hres, hl⟩ := ListAvailableSeats_registered_ok m g hg
  refine ⟨res, l, hres, hl, fun c => ?_⟩
  rw [ReserveSeats_single_ok_iff]
  by_cases hR : 0 < m.cfg.NumRows
  · have hlk := ListAvailableSeats_ok_lookup m g res hres g
    rw [hl] at hlk
    have hmem : g ∈ (if g = "" then m.groupManager.ListGroupIDs else [g]) := by
      by_cases h0 : g = ""
      · rw [if_pos h0]; exact hg
      · rw [if_neg h0]; exact List.mem_singleton.2 rfl
    rw [if_pos hmem, Option.some.injEq] at hlk
    rw [hlk, mem_available_iff m _ g hmem hC hR hN c]
    simp [hg]
  · rw [ListAvailableSeats_mem_cells m g res hres g l hl c]
    have hnonpos : m.cfg.NumRows * m.cfg.NumCols ≤ 0 :=
      Int.mul_nonpos_of_nonpos_of_nonneg (by omega) (by omega)
    rw [wrap64_eq_self _ hlo hN]
    constructor
    · rintro ⟨n, hn, _⟩
      omega
    · rintro ⟨_, hin, _⟩
      omega

/-- Witness for C22 on the 4x4 test room with `abc` at `[0,1]`: `[1,3]` is in the sequence
listed for `xyz`, and reserving `xyz` at `[1,3]` succeeds. -/
theorem ListAvailableSeats_iff_ReserveSeats_witness :
    ((fixture.roomManager.ReserveSeats [⟨"abc", ⟨0, 1⟩⟩]).1.ReserveSeats
      [⟨"xyz", ⟨1, 3⟩⟩]).2 = none ∧
    ((fixture.roomManager.ReserveSeats [⟨"abc", ⟨0, 1⟩⟩]).1.ReserveSeats
      [⟨"xyz", ⟨0, 0⟩⟩]).2 ≠ none :=
  (ListAvailableSeats_iff_ReserveSeats (fixture.roomManager.ReserveSeats [⟨"abc", ⟨0, 1⟩⟩]).1
    (by decide) (by decide) (by decide) "xyz" (by decide)).elim fun res hres =>
    hres.elim fun l hl =>
      have hlist : res = [("xyz", [⟨1, 3⟩, ⟨2, 0⟩, ⟨2, 2⟩, ⟨2, 3⟩, ⟨3, 0⟩, ⟨3, 1⟩, ⟨3, 2⟩,
          ⟨3, 3⟩])] := (Except.ok.inj (hl.1.symm.trans rfl)).symm ▸ rfl
      have hseq : l = [⟨1, 3⟩, ⟨2, 0⟩, ⟨2, 2⟩, ⟨2, 3⟩, ⟨3, 0⟩, ⟨3, 1⟩, ⟨3, 2⟩, ⟨3, 3⟩] := by
        have h2 := hl.2.1
        rw [hlist] at h2
        exact (Option.some.inj h2).symm
      ⟨(hl.2.2 ⟨1, 3⟩).1 (by rw [hseq]; decide),
        fun hok => absurd ((hl.2.2 ⟨0, 0⟩).2 hok) (by rw [hseq]; decide)⟩

/-! ## Filtered listing against listing everything -/

theorem replicate_filter_count (valid : String → Bool) (gs : List String) (g : String)
    (c : Coordinate) :
    (List.replicate (([g].filter valid).count g) c).flatMap
        (fun d => List.replicate (gs.count g) d) =
      List.replicate ((gs.filter valid).count g) c := by
  by_cases hv : valid g = true
  · rw [List.count_filter hv]
    simp [List.filter_cons, hv]
  · have hnot : g ∉ gs.filter valid := fun hmem => hv (List.mem_filter.1 hmem).2
    rw [List.count_eq_zero_of_not_mem hnot]
    simp [List.filter_cons, hv]

/-- C23, the claim refuted at an explicit input. In the empty 2x2 room whose registry is the
listing `abc`, `xyz`, `abc`, the sequence `ListAvailableSeats` returns for `abc` under the
filter `abc` is the four cells once each, while the sequence stored under `abc` when
everything is listed has every cell twice. -/
theorem ListAvailableSeats_filter_differs_from_all :
    (NewRoomManager ⟨2, 2, 3⟩ (NewGroupManager ["abc", "xyz", "abc"])).ListAvailableSeats
        "abc" = .ok [("abc", [⟨0, 0⟩, ⟨0, 1⟩, ⟨1, 0⟩, ⟨1, 1⟩])] ∧
    (NewRoomManager ⟨2, 2, 3⟩ (NewGroupManager ["abc", "xyz", "abc"])).ListAvailableSeats
        "" = .ok [("abc", [⟨0, 0⟩, ⟨0, 0⟩, ⟨0, 1⟩, ⟨0, 1⟩, ⟨1, 0⟩, ⟨1, 0⟩, ⟨1, 1⟩, ⟨1, 1⟩]),
          ("xyz", [⟨0, 0⟩, ⟨0, 1⟩, ⟨1, 0⟩, ⟨1, 1⟩])] ∧
    "abc" ∈ (NewGroupManager ["abc", "xyz", "abc"]).ListGroupIDs ∧
    ([⟨0, 0⟩, ⟨0, 1⟩, ⟨1, 0⟩, ⟨1, 1⟩] : List Coordinate) ≠
      [⟨0, 0⟩, ⟨0, 0⟩, ⟨0, 1⟩, ⟨0, 1⟩, ⟨1, 0⟩, ⟨1, 0⟩, ⟨1, 1⟩, ⟨1, 1⟩] :=
  ⟨rfl, rfl, by decide, by decide⟩

/-- C23 as amended. Filtering is consistent with listing everything up to repetition: for every
reservation map, every registry listing and every group `g` of the registry, when `g` is not
the empty string the sequence stored under `g` in the result of `ListAvailableSeats ""` is the
sequence returned for `g` by `ListAvailableSeats g` with every coordinate repeated as many
times as `g` occurs in the listing; when `g` is the empty string `ListAvailableSeats g` is the
unfiltered call itself and the two sequences are equal; in both cases the two sequences are
equal when the listing has `g` exactly once. -/
theorem ListAvailableSeats_filter_vs_all (m : DefaultRoomManager) (g : String)
    (hg : g ∈ m.groupManager.ListGroupIDs)
    (resG resAll : List (String × List Coordinate)) (lG lAll : List Coordinate)
    (hG : m.ListAvailableSeats g = .ok resG) (hAll : m.ListAvailableSeats "" = .ok resAll)
    (hlG : mapLookup resG g = some lG) (hlAll : mapLookup resAll g = some lAll) :
    (g ≠ "" → lAll = lG.flatMap (fun c =>
      List.replicate (m.groupManager.ListGroupIDs.count g) c)) ∧
    (g = "" → lAll = lG) ∧
    (m.groupManager.ListGroupIDs.count g = 1 → lAll = lG) := by
  by_cases h0 : g = ""
  · subst h0
    rw [hG] at hAll
    have hres : resG = resAll := Except.ok.inj hAll
    subst hres
    rw [hlG] at hlAll
    exact ⟨fun hne => absurd rfl hne, fun _ => (Option.some.inj hlAll).symm,
      fun _ => (Option.some.inj hlAll).symm⟩
  · have hkG := ListAvailableSeats_ok_lookup m g resG hG g
    have hkAll := ListAvailableSeats_ok_lookup m "" resAll hAll g
    rw [hlG, if_neg h0, if_pos (List.mem_singleton.2 rfl), Option.some.injEq] at hkG
    rw [hlAll] at hkAll
    simp only [if_true] at hkAll
    rw [if_pos hg, Option.some.injEq] at hkAll
    have hflat : lAll = lG.flatMap (fun c =>
        List.replicate (m.groupManager.ListGroupIDs.count g) c) := by
      rw [hkG, hkAll, List.flatMap_assoc]
      apply List.flatMap_congr
      intro i _
      by_cases hres : (mapLookup m.reservedSeat i).isSome = true
      · simp [hres]
      · simp only [hres, if_false, Bool.false_eq_true]
        exact (replicate_filter_count _ _ g _).symm
    refine ⟨fun _ => hflat, fun hempty => absurd hempty h0, fun hone => ?_⟩
    rw [hflat, hone]
    simp

/-- Witness for C23 as amended, in its three cases. In the empty 2x2 room whose registry is
`abc`, `xyz`, `abc`, the sequence stored under `abc` when everything is listed is the filtered
sequence with every cell repeated twice, and the sequence for `xyz`, listed once, is the
filtered one. In the empty 1x1 room whose registry lists the empty string twice, the call with
filter `""` is the unfiltered call and both sequences are the cell `[0,0]` twice. -/
theorem ListAvailableSeats_filter_vs_all_witness :
    (([⟨0, 0⟩, ⟨0, 0⟩, ⟨0, 1⟩, ⟨0, 1⟩, ⟨1, 0⟩, ⟨1, 0⟩, ⟨1, 1⟩, ⟨1, 1⟩] : List Coordinate) =
      ([⟨0, 0⟩, ⟨0, 1⟩, ⟨1, 0⟩, ⟨1, 1⟩] : List Coordinate).flatMap (fun c =>
        List.replicate
          ((NewRoomManager ⟨2, 2, 3⟩
            (NewGroupManager ["abc", "xyz", "abc"])).groupManager.ListGroupIDs.count "abc")
          c)) ∧
    (NewRoomManager ⟨2, 2, 3⟩ (NewGroupManager ["abc", "xyz", "abc"])).ListAvailableSeats
        "xyz" = .ok [("xyz", [⟨0, 0⟩, ⟨0, 1⟩, ⟨1, 0⟩, ⟨1, 1⟩])] ∧
    (NewRoomManager ⟨1, 1, 3⟩ (NewGroupManager ["", ""])).ListAvailableSeats "" =
      .ok [("", [⟨0, 0⟩, ⟨0, 0⟩])] ∧
    (NewGroupManager ["", ""]).ListGroupIDs.count "" = 2 ∧
    ([⟨0, 0⟩, ⟨0, 0⟩] : List Coordinate) = ([⟨0, 0⟩, ⟨0, 0⟩] : List Coordinate) :=
  ⟨(ListAvailableSeats_filter_vs_all
      (NewRoomManager ⟨2, 2, 3⟩ (NewGroupManager ["abc", "xyz", "abc"])) "abc" (by decide)
      [("abc", [⟨0, 0⟩, ⟨0, 1⟩, ⟨1, 0⟩, ⟨1, 1⟩])]
      [("abc", [⟨0, 0⟩, ⟨0, 0⟩, ⟨0, 1⟩, ⟨0, 1⟩, ⟨1, 0⟩, ⟨1, 0⟩, ⟨1, 1⟩, ⟨1, 1⟩]),
        ("xyz", [⟨0, 0⟩, ⟨0, 1⟩, ⟨1, 0⟩, ⟨1, 1⟩])]
      [⟨0, 0⟩, ⟨0, 1⟩, ⟨1, 0⟩, ⟨1, 1⟩]
      [⟨0, 0⟩, ⟨0, 0⟩, ⟨0, 1⟩, ⟨0, 1⟩, ⟨1, 0⟩, ⟨1, 0⟩, ⟨1, 1⟩, ⟨1, 1⟩]
      rfl rfl (by decide) (by decide)).1 (by decide),
    rfl, rfl, by decide,
    (ListAvailableSeats_filter_vs_all
      (NewRoomManager ⟨1, 1, 3⟩ (NewGroupManager ["", ""])) "" (by decide)
      [("", [⟨0, 0⟩, ⟨0, 0⟩])] [("", [⟨0, 0⟩, ⟨0, 0⟩])] [⟨0, 0⟩, ⟨0, 0⟩] [⟨0, 0⟩, ⟨0, 0⟩]
      rfl rfl (by decide) (by decide)).2.1 rfl⟩

/-! ## Repeated coordinates in a cancel batch -/

/-- C25. Repeated coordinates in a cancel batch are tolerated: for every state and every batch
of coordinates whose indexes are all occupied, `CancelSeats` succeeds, also when a coordinate
occurs several times; the batch with the repeats removed succeeds as well and leaves the same
manager; afterwards no index of the batch is occupied. -/
theorem CancelSeats_repeats_tolerated (m : DefaultRoomManager) (coordinates : List Coordinate)
    (hocc : ∀ c ∈ coordinates, mapLookup m.reservedSeat (c.AsIndex m.cfg.NumCols) ≠ none) :
    (m.CancelSeats coordinates).2 = none ∧
    (m.CancelSeats coordinates.dedup).2 = none ∧
    (m.CancelSeats coordinates).1 = (m.CancelSeats coordinates.dedup).1 ∧
    (∀ c ∈ coordinates,
      mapLookup (m.CancelSeats coordinates).1.reservedSeat (c.AsIndex m.cfg.NumCols) =
        none) := by
  have h1 : (m.CancelSeats coordinates).2 = none := (CancelSeats_ok_iff m coordinates).2 hocc
  have h2 : (m.CancelSeats coordinates.dedup).2 = none :=
    (CancelSeats_ok_iff m coordinates.dedup).2
      (fun c hc => hocc c (List.mem_dedup.1 hc))
  refine ⟨h1, h2, ?_, fun c hc => ?_⟩
  · rw [CancelSeats_ok_reservedSeat m coordinates h1,
      CancelSeats_ok_reservedSeat m coordinates.dedup h2]
    congr 1
    apply List.filter_congr
    intro e _
    simp only [List.mem_map, List.mem_dedup]
  · rw [CancelSeats_ok_reservedSeat m coordinates h1]
    simp only [mapLookup_filter_not_mem]
    rw [if_pos (List.mem_map.2 ⟨c, hc, rfl⟩)]

/-- Witness for C25 on the 4x4 test room with `abc` at `[0,1]`: cancelling the batch
`[0,1]`, `[0,1]` succeeds and leaves the empty room, as cancelling `[0,1]` once does. -/
theorem CancelSeats_repeats_tolerated_witness :
    ((fixture.roomManager.ReserveSeats [⟨"abc", ⟨0, 1⟩⟩]).1.CancelSeats
      [⟨0, 1⟩, ⟨0, 1⟩]).2 = none ∧
    ((fixture.roomManager.ReserveSeats [⟨"abc", ⟨0, 1⟩⟩]).1.CancelSeats
      [⟨0, 1⟩, ⟨0, 1⟩]).1 = fixture.roomManager ∧
    ((fixture.roomManager.ReserveSeats [⟨"abc", ⟨0, 1⟩⟩]).1.CancelSeats
      [⟨0, 1⟩]).1 = fixture.roomManager :=
  ⟨(CancelSeats_repeats_tolerated (fixture.roomManager.ReserveSeats [⟨"abc", ⟨0, 1⟩⟩]).1
      [⟨0, 1⟩, ⟨0, 1⟩] (by decide)).1, by decide, by decide⟩

/-! ## Keys of the `ListAvailableSeats` result -/

theorem keys_mapInsert_of_mem {ν : Type} (b : List (String × ν)) (k : String) (v : ν)
    (hk : k ∈ b.map Prod.fst) : (mapInsert b k v).map Prod.fst = b.map Prod.fst := by
  induction b with
  | nil => simp at hk
  | cons hd tl ih =>
    obtain ⟨k0, v0⟩ := hd
    by_cases h0 : k0 = k
    · simp [mapInsert, h0]
    · have htl : k ∈ tl.map Prod.fst := by
        simp only [List.map_cons, List.mem_cons] at hk
        rcases hk with hk | hk
        · exact absurd hk.symm h0
        · exact hk
      simp [mapInsert, h0, ih htl]

theorem keys_mapInsert_of_not_mem {ν : Type} (b : List (String × ν)) (k : String) (v : ν)
    (hk : k ∉ b.map Prod.fst) : (mapInsert b k v).map Prod.fst = b.map Prod.fst ++ [k] := by
  have hnone : mapLookup b k = none := by
    rw [mapLookup_eq_none_iff]
    intro e he heq
    exact hk (List.mem_map.2 ⟨e, he, heq⟩)
  rw [mapInsert_of_lookup_none b k v hnone]
  simp

theorem keys_bucket_init (gs : List String) (b : List (String × List Coordinate))
    (hb : (b.map Prod.fst).Nodup) :
    ((gs.foldl (fun b g => mapInsert b g []) b).map Prod.fst).Nodup ∧
      ∀ x, x ∈ (gs.foldl (fun b g => mapInsert b g []) b).map Prod.fst ↔
        x ∈ b.map Prod.fst ∨ x ∈ gs := by
  induction gs generalizing b with
  | nil => simp [hb]
  | cons g rest ih =>
    simp only [List.foldl_cons]
    by_cases hg : g ∈ b.map Prod.fst
    · have hkeys := keys_mapInsert_of_mem b g ([] : List Coordinate) hg
      obtain ⟨h1, h2⟩ := ih (mapInsert b g []) (by rw [hkeys]; exact hb)
      refine ⟨h1, fun x => ?_⟩
      rw [h2 x, hkeys, List.mem_cons]
      constructor
      · rintro (h | h)
        · exact Or.inl h
        · exact Or.inr (Or.inr h)
      · rintro (h | h | h)
        · exact Or.inl h
        · exact Or.inl (h ▸ hg)
        · exact Or.inr h
    · have hkeys := keys_mapInsert_of_not_mem b g ([] : List Coordinate) hg
      obtain ⟨h1, h2⟩ := ih (mapInsert b g []) (by
        rw [hkeys]
        exact List.nodup_append.2 ⟨hb, List.nodup_singleton g, by
          intro a ha hag
          rw [List.mem_singleton] at hag
          exact hg (hag ▸ ha)⟩)
      refine ⟨h1, fun x => ?_⟩
      rw [h2 x, hkeys, List.mem_append, List.mem_singleton, List.mem_cons]
      constructor
      · rintro ((h | h) | h)
        · exact Or.inl h
        · exact Or.inr (Or.inl h)
        · exact Or.inr (Or.inr h)
      · rintro (h | h | h)
        · exact Or.inl (Or.inl h)
        · exact Or.inl (Or.inr h)
        · exact Or.inr h

theorem keys_inner_fold (valid : String → Bool) (c : Coordinate) (gs : List String)
    (b : List (String × List Coordinate)) (hgs : ∀ g ∈ gs, g ∈ b.map Prod.fst) :
    (gs.foldl (fun b groupID =>
      if valid groupID then mapInsert b groupID ((mapLookup b groupID).getD [] ++ [c])
      else b) b).map Prod.fst = b.map Prod.fst := by
  induction gs generalizing b with
  | nil => simp
  | cons g rest ih =>
    simp only [List.foldl_cons]
    have hg : g ∈ b.map Prod.fst := hgs g (List.mem_cons_self _ _)
    by_cases hv : valid g = true
    · simp only [hv, if_true]
      have hkeys := keys_mapInsert_of_mem b g ((mapLookup b g).getD [] ++ [c]) hg
      rw [ih _ (fun x hx => by rw [hkeys]; exact hgs x (List.mem_cons_of_mem _ hx)), hkeys]
    · simp only [hv, if_false, Bool.false_eq_true]
      exact ih b (fun x hx => hgs x (List.mem_cons_of_mem _ hx))

theorem keys_listStep (m : DefaultRoomManager) (r : List (Int × String)) (gs : List String)
    (b : List (String × List Coordinate)) (i : Int)
    (hgs : ∀ g ∈ gs, g ∈ b.map Prod.fst) :
    (m.listStep r gs b i).map Prod.fst = b.map Prod.fst := by
  unfold DefaultRoomManager.listStep
  by_cases hr : (mapLookup r i).isSome = true
  · simp [hr]
  · simp only [hr, if_false, Bool.false_eq_true]
    exact keys_inner_fold _ _ gs b hgs

theorem keys_cells_fold (m : DefaultRoomManager) (r : List (Int × String)) (gs : List String)
    (cells : List Int) (b : List (String × List Coordinate))
    (hgs : ∀ g ∈ gs, g ∈ b.map Prod.fst) :
    (cells.foldl (m.listStep r gs) b).map Prod.fst = b.map Prod.fst := by
  induction cells generalizing b with
  | nil => simp
  | cons i rest ih =>
    simp only [List.foldl_cons]
    have hstep := keys_listStep m r gs b i hgs
    rw [ih _ (fun g hg => by rw [hstep]; exact hgs g hg), hstep]

theorem keys_list_result (m : DefaultRoomManager) (r : List (Int × String))
    (gs : List String) (cells : List Int) :
    (cells.foldl (m.listStep r gs) (gs.foldl (fun b g => mapInsert b g []) [])).map Prod.fst =
      (gs.foldl (fun b g => mapInsert b g [])
        ([] : List (String × List Coordinate))).map Prod.fst := by
  apply keys_cells_fold
  intro g hg
  exact ((keys_bucket_init gs [] (by simp)).2 g).2 (Or.inr hg)

/-- C26. Key set of a successful `ListAvailableSeats` result: no key occurs twice; with an
empty filter the keys are exactly the group ids of the registry, each id giving one key however
often the listing repeats it; with a non-empty filter, which is then registered, the only key
is the filter; and every key, as every target group, has a sequence stored under it, whether
or not a cell is available for it. -/
theorem ListAvailableSeats_keys (m : DefaultRoomManager) (groupID : String)
    (res : List (String × List Coordinate)) (h : m.ListAvailableSeats groupID = .ok res) :
    (res.map Prod.fst).Nodup ∧
    (groupID = "" → ∀ g, (res.map Prod.fst).count g =
      if g ∈ m.groupManager.ListGroupIDs then 1 else 0) ∧
    (groupID ≠ "" → groupID ∈ m.groupManager.ListGroupIDs ∧
      res.map Prod.fst = [groupID]) ∧
    (groupID = "" → ∀ g ∈ m.groupManager.ListGroupIDs, ∃ l, mapLookup res g = some l) ∧
    (groupID ≠ "" → ∃ l, mapLookup res groupID = some l) := by
  have hlk := ListAvailableSeats_ok_lookup m groupID res h
  have hkeys : res.map Prod.fst =
      ((if groupID = "" then m.groupManager.ListGroupIDs else [groupID]).foldl
        (fun b g => mapInsert b g []) ([] : List (String × List Coordinate))).map
        Prod.fst := by
    unfold DefaultRoomManager.ListAvailableSeats at h
    split_ifs at h with h1 h2
    · simp only [Except.ok.injEq] at h
      subst h
      rw [if_pos h2]
      exact keys_list_result m m.reservedSeat _ _
    · simp only [Except.ok.injEq] at h
      subst h
      rw [if_neg h2]
      exact keys_list_result m m.reservedSeat _ _
  obtain ⟨hnodup, hmem⟩ := keys_bucket_init
    (if groupID = "" then m.groupManager.ListGroupIDs else [groupID]) [] (by simp)
  rw [← hkeys] at hnodup hmem
  refine ⟨hnodup, fun h0 g => ?_, fun hne => ?_, fun h0 g hg => ?_, fun hne => ?_⟩
  · have hiff := hmem g
    rw [if_pos h0] at hiff
    by_cases hg : g ∈ m.groupManager.ListGroupIDs
    · rw [if_pos hg]
      exact List.count_eq_one_of_mem hnodup (hiff.2 (Or.inr hg))
    · rw [if_neg hg]
      apply List.count_eq_zero_of_not_mem
      intro hin
      rcases hiff.1 hin with hc | hc
      · simp at hc
      · exact hg hc
  · constructor
    · have hreg : m.groupManager.HasGroupID groupID = true := by
        unfold DefaultRoomManager.ListAvailableSeats at h
        by_contra hno
        simp [hne, hno] at h
      exact (HasGroupID_iff m.groupManager groupID).1 hreg
    · rw [hkeys, if_neg hne]
      simp [mapInsert]
  · have := hlk g
    rw [if_pos h0, if_pos hg] at this
    exact ⟨_, this⟩
  · have := hlk groupID
    rw [if_neg hne, if_pos (List.mem_singleton.2 rfl)] at this
    exact ⟨_, this⟩

/-- Witness for C26: the 1x1 room whose only cell is held by `abc` has no available cell, and
listing everything still returns the keys `abc` and `xyz`, each with an empty sequence. -/
theorem ListAvailableSeats_keys_witness :
    ((NewRoomManager ⟨1, 1, 3⟩ fixture.groupManager).ReserveSeats
        [⟨"abc", ⟨0, 0⟩⟩]).1.ListAvailableSeats "" = .ok [("abc", []), ("xyz", [])] ∧
    ([("abc", ([] : List Coordinate)), ("xyz", [])].map Prod.fst).Nodup :=
  ⟨rfl,
    (ListAvailableSeats_keys
      ((NewRoomManager ⟨1, 1, 3⟩ fixture.groupManager).ReserveSeats [⟨"abc", ⟨0, 0⟩⟩]).1 ""
      [("abc", []), ("xyz", [])] rfl).1⟩

end manager

/-! ## The distance invariant under single-group batches -/

theorem wrap64_lt (x : Int) : wrap64 x < 9223372036854775808 := by
  unfold wrap64
  omega

namespace manager

theorem manhattan_wrap_le (x1 x2 y1 y2 : Int) :
    wrap64 (mathutil.AbsDiff x1 x2 + mathutil.AbsDiff y1 y2) ≤ |x1 - x2| + |y1 - y2| := by
  have hx := abs_nonneg (x1 - x2)
  have hy := abs_nonneg (y1 - y2)
  by_cases hd : |x1 - x2| + |y1 - y2| < 9223372036854775808
  · have hxl : |x1 - x2| < 9223372036854775808 := by omega
    have hyl : |y1 - y2| < 9223372036854775808 := by omega
    rw [abs_lt] at hxl hyl
    rw [mathutil.AbsDiff_eq_abs x1 x2 (by omega) (by omega),
      mathutil.AbsDiff_eq_abs y1 y2 (by omega) (by omega),
      wrap64_eq_self _ (by omega) hd]
  · have := wrap64_lt (mathutil.AbsDiff x1 x2 + mathutil.AbsDiff y1 y2)
    omega

theorem isValidDistance_sound (m : DefaultRoomManager) (a b : Seat)
    (hv : m.isValidDistance a b = true) (hne : a.GroupID ≠ b.GroupID) :
    m.cfg.MinDistance ≤
      |a.Coordinate.row - b.Coordinate.row| + |a.Coordinate.col - b.Coordinate.col| := by
  unfold DefaultRoomManager.isValidDistance at hv
  simp only [Seat.Row, Seat.Col, decide_eq_true_eq, ge_iff_le, hne, ne_eq, not_false_eq_true,
    if_true] at hv
  exact Int.le_trans hv (manhattan_wrap_le _ _ _ _)

/-- C24. The distance invariant is preserved by single-group batches, in a room with fewer than
`2^63` cells: from a reservation map in which any two seats of different groups are at
Manhattan distance at least `MinDistance`, a successful `ReserveSeats` whose batch entries all
carry one group id leads to a map with the same property, and so does every successful
`CancelSeats`. The coordinate of an entry with index `j` is `indexToCoordinate j`. -/
theorem distance_invariant_preserved (m : DefaultRoomManager)
    (hN : m.cfg.NumRows * m.cfg.NumCols < 9223372036854775808)
    (hinv : ∀ x ∈ m.reservedSeat, ∀ y ∈ m.reservedSeat, x.2 ≠ y.2 →
      m.cfg.MinDistance ≤
        |(m.indexToCoordinate x.1).row - (m.indexToCoordinate y.1).row| +
          |(m.indexToCoordinate x.1).col - (m.indexToCoordinate y.1).col|) :
    (∀ (seats : List Seat) (g : String), (∀ s ∈ seats, s.GroupID = g) →
      (m.ReserveSeats seats).2 = none →
      ∀ x ∈ (m.ReserveSeats seats).1.reservedSeat,
        ∀ y ∈ (m.ReserveSeats seats).1.reservedSeat, x.2 ≠ y.2 →
          (m.ReserveSeats seats).1.cfg.MinDistance ≤
            |((m.ReserveSeats seats).1.indexToCoordinate x.1).row -
                ((m.ReserveSeats seats).1.indexToCoordinate y.1).row| +
              |((m.ReserveSeats seats).1.indexToCoordinate x.1).col -
                ((m.ReserveSeats seats).1.indexToCoordinate y.1).col|) ∧
    (∀ coordinates : List Coordinate, (m.CancelSeats coordinates).2 = none →
      ∀ x ∈ (m.CancelSeats coordinates).1.reservedSeat,
        ∀ y ∈ (m.CancelSeats coordinates).1.reservedSeat, x.2 ≠ y.2 →
          (m.CancelSeats coordinates).1.cfg.MinDistance ≤
            |((m.CancelSeats coordinates).1.indexToCoordinate x.1).row -
                ((m.CancelSeats coordinates).1.indexToCoordinate y.1).row| +
              |((m.CancelSeats coordinates).1.indexToCoordinate x.1).col -
                ((m.CancelSeats coordinates).1.indexToCoordinate y.1).col|) := by
  constructor
  · intro seats g hsame hok
    obtain ⟨hchk, _⟩ := (validateSeats_eq_none_iff m seats 0 []).1
      (validateSeats_of_ReserveSeats_ok m seats hok)
    rw [ReserveSeats_ok_reservedSeat m seats hok]
    have hnew : ∀ s ∈ seats, ∀ x ∈ m.reservedSeat, s.GroupID ≠ x.2 →
        m.cfg.MinDistance ≤
          |(m.indexToCoordinate (s.Coordinate.AsIndex m.cfg.NumCols)).row -
              (m.indexToCoordinate x.1).row| +
            |(m.indexToCoordinate (s.Coordinate.AsIndex m.cfg.NumCols)).col -
              (m.indexToCoordinate x.1).col| := by
      intro s hs x hx hne
      obtain ⟨_, hin, _, _, hvalid⟩ := hchk s hs
      rw [indexToCoordinate_AsIndex m s.Coordinate hN hin]
      exact isValidDistance_sound m s ⟨x.2, m.indexToCoordinate x.1⟩ (hvalid x hx) hne
    intro x hx y hy hne
    show m.cfg.MinDistance ≤
      |(m.indexToCoordinate x.1).row - (m.indexToCoordinate y.1).row| +
        |(m.indexToCoordinate x.1).col - (m.indexToCoordinate y.1).col|
    rcases List.mem_append.1 hx with hxo | hxn
    · rcases List.mem_append.1 hy with hyo | hyn
      · exact hinv x hxo y hyo hne
      · obtain ⟨s, hs, rfl⟩ := List.mem_map.1 hyn
        have := hnew s hs x hxo (fun h => hne h.symm)
        rw [abs_sub_comm (m.indexToCoordinate x.1).row, abs_sub_comm (m.indexToCoordinate x.1).col]
        exact this
    · obtain ⟨s, hs, rfl⟩ := List.mem_map.1 hxn
      rcases List.mem_append.1 hy with hyo | hyn
      · exact hnew s hs y hyo hne
      · obtain ⟨t, ht, rfl⟩ := List.mem_map.1 hyn
        exact absurd ((hsame s hs).trans (hsame t ht).symm) hne
  · intro coordinates hok
    rw [CancelSeats_ok_reservedSeat m coordinates hok]
    intro x hx y hy hne
    exact hinv x (List.mem_of_mem_filter hx) y (List.mem_of_mem_filter hy) hne

/-- Witness for C24 on the 4x4 test room with `abc` at `[0,1]` and `xyz` at `[3,3]`, where the
invariant holds: after the batch `xyz` at `[3,2]`, `xyz` at `[2,3]`, the seats with indexes 1
(`abc`) and 14 (`xyz`) are at Manhattan distance at least 3. -/
theorem distance_invariant_preserved_witness :
    fixture.cfg.MinDistance ≤
      |(fixture.roomManager.indexToCoordinate 1).row -
          (fixture.roomManager.indexToCoordinate 14).row| +
        |(fixture.roomManager.indexToCoordinate 1).col -
          (fixture.roomManager.indexToCoordinate 14).col| :=
  (distance_invariant_preserved
    ((fixture.roomManager.ReserveSeats [⟨"abc", ⟨0, 1⟩⟩]).1.ReserveSeats
      [⟨"xyz", ⟨3, 3⟩⟩]).1 (by decide) (by decide)).1
    [⟨"xyz", ⟨3, 2⟩⟩, ⟨"xyz", ⟨2, 3⟩⟩] "xyz" (by decide) (by decide)
    (1, "abc") (by decide) (14, "xyz") (by decide) (by decide)

end manager
